import Mathlib

/-!
The BMP decoder of `src/bmp.cpp`.

A shallow embedding of `bmp::Parser` and of the two free functions
`bytesToUnsignedInt` / `bytesToSignedInt`.

Conventions of the embedding.

* A `char` object is stored as its eight bits (`Byte`).  Its value as an
  integer is produced by `charToInt`; whether plain `char` is signed is
  implementation-defined in C++, so it is the parameter `charSigned`.
* `uint32_t`, `uint16_t` and `int` are `Nat` / `Int` reduced explicitly modulo
  `2^32`, `2^16` (two's complement wrap-around for `int`).
* `m_data[i]` past the end of the buffer is undefined behaviour in C++; the
  embedding makes it the outcome `Error.outOfBounds`.
* The class declarations (`bmp.h`) and `matrix::Mat` are not part of the
  sources: the freshly constructed descriptor and the default-constructed
  `Color` are parameters of `Parser`.
-/

namespace bmp

/-- One element of `m_data`, one `char` object: eight bits. -/
abbrev Byte := Fin 256

/-- Integer value of a plain `char` (integral promotion to `int`): sign-extended
when plain `char` is a signed type, zero-extended otherwise. -/
def charToInt (charSigned : Bool) (c : Byte) : Int :=
  if charSigned = true ∧ 128 ≤ c.val then (c.val : Int) - 256 else (c.val : Int)

/-- Conversion of an integer value to `uint32_t`. -/
def toUInt32 (x : Int) : Nat := (x % 4294967296).toNat

/-- Conversion of an integer value to `uint16_t`. -/
def toUInt16 (x : Int) : Nat := (x % 65536).toNat

/-- Conversion of an integer value to a 32-bit two's complement `int`. -/
def toInt32 (x : Int) : Int := (x + 2147483648) % 4294967296 - 2147483648

/-- The function `bytesToUnsignedInt`: `uint32_t result = bytes[0]`, then for
`i = 1, 2, 3`: `result <<= 8; result += bytes[i]`. -/
def bytesToUnsignedInt (charSigned : Bool) (bytes : Fin 4 → Byte) : Nat :=
  ([1, 2, 3] : List (Fin 4)).foldl
    (fun result i =>
      ((result <<< 8) % 4294967296 + toUInt32 (charToInt charSigned (bytes i))) % 4294967296)
    (toUInt32 (charToInt charSigned (bytes 0)))

/-- The function `bytesToSignedInt`: `int result = bytes[0]`, then for
`i = 1, 2, 3`: `result <<= 8; result += bytes[i]`, on a wrapping 32-bit `int`. -/
def bytesToSignedInt (charSigned : Bool) (bytes : Fin 4 → Byte) : Int :=
  ([1, 2, 3] : List (Fin 4)).foldl
    (fun result i => toInt32 (toInt32 (result * 256) + charToInt charSigned (bytes i)))
    (toInt32 (charToInt charSigned (bytes 0)))

/-- Big-endian unsigned 32-bit value of four bytes. -/
def beU32 (b0 b1 b2 b3 : Byte) : Nat :=
  b0.val * 16777216 + b1.val * 65536 + b2.val * 256 + b3.val

/-- Two's complement signed reading of a 32-bit pattern. -/
def twosComplement32 (n : Nat) : Int :=
  if n < 2147483648 then (n : Int) else (n : Int) - 4294967296

/-- Outcomes of the decoder other than a descriptor: the five
`exceptions::BMPException` messages thrown by `Parser`, and the two places where
the C++ has undefined behaviour. -/
inductive Error
  /-- Message "Error in Magic - Header". -/
  | magic
  /-- Message "Error in size of header(not 40) - in DIBHeader". -/
  | headerSize
  /-- Message "Error in constant(not 1) - in DIBHeader". -/
  | constant
  /-- Message "Error in bitsPerPixel(not 0) - in DIBHeader". -/
  | bitsPerPixel
  /-- Message "Error in compression(not 0) - in DIBHeader". -/
  | compression
  /-- Read of `m_data[i]` with `i` not below the size of the buffer. -/
  | outOfBounds
  /-- Conversion to `uint32_t` of a `double` that does not fit. -/
  | notRepresentable
  deriving DecidableEq, Repr

/-- The class `Color`: the three `char` arguments of its constructor. -/
structure Color where
  m_red : Byte
  m_green : Byte
  m_blue : Byte
  deriving DecidableEq, Repr

/-- Member `Color::getRed`, a `double` holding the value of the channel. -/
def Color.getRed (charSigned : Bool) (c : Color) : Int := charToInt charSigned c.m_red

/-- Member `Color::getGreen`. -/
def Color.getGreen (charSigned : Bool) (c : Color) : Int := charToInt charSigned c.m_green

/-- Member `Color::getBlue`. -/
def Color.getBlue (charSigned : Bool) (c : Color) : Int := charToInt charSigned c.m_blue

/-- The type `std::map<char, Color>`: a finite map, given by its lookup. -/
abbrev Palette := Byte → Option Color

/-- The empty `std::map<char, Color>`. -/
def Palette.empty : Palette := fun _ => none

/-- Assignment `colors[key] = c`. -/
def Palette.insert (colors : Palette) (key : Byte) (c : Color) : Palette :=
  fun k => if k = key then some c else colors k

/-- Modelled from the spec: the 2-D numeric grid `matrix::Mat`, which is declared
outside these sources: fixed dimensions and row/column indexed cells. -/
structure Mat where
  height : Nat
  width : Nat
  cells : Nat → Nat → Int

/-- Modelled from the spec: the constructor `matrix::Mat(height, width)`. -/
def Mat.create (height width : Nat) : Mat := ⟨height, width, fun _ _ => 0⟩

/-- Modelled from the spec: the write `m(i, j) = v`. -/
def Mat.set (m : Mat) (i j : Nat) (v : Int) : Mat :=
  { m with cells := fun a b => if a = i ∧ b = j then v else m.cells a b }

/-- The class `BMP`: the members written by its setters. -/
structure BMP where
  m_magic : Byte × Byte
  m_bmpFileSize : Nat
  m_pixelArrayAddress : Nat
  m_headerSize : Nat
  m_bitmapWidth : Int
  m_bitmapHeight : Int
  m_constant : Byte × Byte
  m_bitsPerPixel : Byte × Byte
  m_compression : Nat
  m_bitmapSizeWithoutCompression : Nat
  m_numOfColors : Nat
  m_colors : Palette
  m_red : Mat
  m_green : Mat
  m_blue : Mat

/-- Member `BMP::getBitsPerPixel`: `(int)m_bitsPerPixel[1]`. -/
def BMP.getBitsPerPixel (charSigned : Bool) (pic : BMP) : Int :=
  charToInt charSigned pic.m_bitsPerPixel.2

/-- Member `BMP::getNumOfColors`. -/
def BMP.getNumOfColors (pic : BMP) : Nat := pic.m_numOfColors

/-- Member `BMP::getPixelArrayAddress`. -/
def BMP.getPixelArrayAddress (pic : BMP) : Nat := pic.m_pixelArrayAddress

/-- Member `BMP::getBitMapWidth`, which returns `uint32_t`. -/
def BMP.getBitMapWidth (pic : BMP) : Nat := toUInt32 pic.m_bitmapWidth

/-- Member `BMP::getBitMapHeight`, which returns `uint32_t`. -/
def BMP.getBitMapHeight (pic : BMP) : Nat := toUInt32 pic.m_bitmapHeight

/-- Member `BMP::getColors`. -/
def BMP.getColors (pic : BMP) : Palette := pic.m_colors

/-- A value-initialised `BMP`: every scalar member zero, the map empty. -/
def BMP.zero : BMP :=
  { m_magic := (0, 0), m_bmpFileSize := 0, m_pixelArrayAddress := 0, m_headerSize := 0,
    m_bitmapWidth := 0, m_bitmapHeight := 0, m_constant := (0, 0), m_bitsPerPixel := (0, 0),
    m_compression := 0, m_bitmapSizeWithoutCompression := 0, m_numOfColors := 0,
    m_colors := Palette.empty, m_red := Mat.create 0 0, m_green := Mat.create 0 0,
    m_blue := Mat.create 0 0 }

/-- The read `m_data[i]`. -/
def readAt (m_data : List Byte) (i : Nat) : Except Error Byte :=
  match m_data[i]? with
  | some c => .ok c
  | none => .error .outOfBounds

/-- The initialiser `{m_data[i], m_data[i + 1], m_data[i + 2], m_data[i + 3]}` of a
`const char [4]`. -/
def read4 (m_data : List Byte) (i : Nat) : Except Error (Fin 4 → Byte) :=
  match readAt m_data i, readAt m_data (i + 1), readAt m_data (i + 2), readAt m_data (i + 3) with
  | .ok c0, .ok c1, .ok c2, .ok c3 => .ok ![c0, c1, c2, c3]
  | _, _, _, _ => .error .outOfBounds

/-- Method `Parser::parseMagic`. -/
def parseMagic (charSigned : Bool) (pic : BMP) (m_data : List Byte) : Except Error BMP :=
  match readAt m_data 0 with
  | .error e => .error e
  | .ok c0 =>
    if charToInt charSigned c0 ≠ 66 then .error .magic
    else
      match readAt m_data 1 with
      | .error e => .error e
      | .ok c1 =>
        if charToInt charSigned c1 ≠ 77 then .error .magic
        else .ok { pic with m_magic := (c0, c1) }

/-- Method `Parser::parseBmpFileSize`. -/
def parseBmpFileSize (charSigned : Bool) (pic : BMP) (m_data : List Byte) : Except Error BMP := do
  let bmpFileSize ← read4 m_data 2
  pure { pic with m_bmpFileSize := bytesToUnsignedInt charSigned bmpFileSize }

/-- Method `Parser::parsePixelArrayAddress`. -/
def parsePixelArrayAddress (charSigned : Bool) (pic : BMP) (m_data : List Byte) :
    Except Error BMP := do
  let pixelArrayAddress ← read4 m_data 10
  pure { pic with m_pixelArrayAddress := bytesToUnsignedInt charSigned pixelArrayAddress }

/-- Method `Parser::parseHeader`. -/
def parseHeader (charSigned : Bool) (pic : BMP) (m_data : List Byte) : Except Error BMP := do
  let pic ← parseMagic charSigned pic m_data
  let pic ← parseBmpFileSize charSigned pic m_data
  parsePixelArrayAddress charSigned pic m_data

/-- Method `Parser::parseHeaderSize`. -/
def parseHeaderSize (charSigned : Bool) (pic : BMP) (m_data : List Byte) : Except Error BMP :=
  match read4 m_data 14 with
  | .error e => .error e
  | .ok headerSizeArray =>
    let headerSize := bytesToUnsignedInt charSigned headerSizeArray
    if headerSize ≠ 40 then .error .headerSize
    else .ok { pic with m_headerSize := headerSize }

/-- Method `Parser::parseBitmapWidth`. -/
def parseBitmapWidth (charSigned : Bool) (pic : BMP) (m_data : List Byte) : Except Error BMP := do
  let bitmapWidth ← read4 m_data 18
  pure { pic with m_bitmapWidth := bytesToSignedInt charSigned bitmapWidth }

/-- Method `Parser::parseBitmapHeight`. -/
def parseBitmapHeight (charSigned : Bool) (pic : BMP) (m_data : List Byte) : Except Error BMP := do
  let bitmapHeight ← read4 m_data 22
  pure { pic with m_bitmapHeight := bytesToSignedInt charSigned bitmapHeight }

/-- Method `Parser::parseConstant`. -/
def parseConstant (charSigned : Bool) (pic : BMP) (m_data : List Byte) : Except Error BMP :=
  match readAt m_data 26 with
  | .error e => .error e
  | .ok c0 =>
    if charToInt charSigned c0 ≠ 0 then .error .constant
    else
      match readAt m_data 27 with
      | .error e => .error e
      | .ok c1 =>
        if charToInt charSigned c1 ≠ 1 then .error .constant
        else .ok { pic with m_constant := (c0, c1) }

/-- Method `Parser::parseBitsPerPixel`: a local `uint16_t` is assembled from
`m_data[28]` and `m_data[29]` and compared with 0; no setter is called. -/
def parseBitsPerPixel (charSigned : Bool) (pic : BMP) (m_data : List Byte) : Except Error BMP :=
  match readAt m_data 28 with
  | .error e => .error e
  | .ok c0 =>
    let bitsPerPixel := toUInt16 (charToInt charSigned c0)
    let bitsPerPixel := toUInt16 ((bitsPerPixel <<< 8 : Nat) : Int)
    match readAt m_data 29 with
    | .error e => .error e
    | .ok c1 =>
      let bitsPerPixel := toUInt16 ((bitsPerPixel : Int) + charToInt charSigned c1)
      if bitsPerPixel ≠ 0 then .error .bitsPerPixel
      else .ok pic

/-- Method `Parser::parseCompression`. -/
def parseCompression (charSigned : Bool) (pic : BMP) (m_data : List Byte) : Except Error BMP :=
  match read4 m_data 30 with
  | .error e => .error e
  | .ok compressionArray =>
    let compression := bytesToUnsignedInt charSigned compressionArray
    if compression ≠ 0 then .error .compression
    else .ok { pic with m_compression := compression }

/-- Method `Parser::parseBitmapSizeWithoutCompression`. -/
def parseBitmapSizeWithoutCompression (charSigned : Bool) (pic : BMP) (m_data : List Byte) :
    Except Error BMP := do
  let bitmapSizeWithoutCompressionArray ← read4 m_data 34
  pure { pic with
    m_bitmapSizeWithoutCompression :=
      bytesToUnsignedInt charSigned bitmapSizeWithoutCompressionArray }

/-- The initialisation `uint32_t n = std::pow(2, e)` for an `int` exponent `e` in
the range of a `char`: the power is an exact `double`; a power below one is
truncated to 0, and a power from `2^32` on has no `uint32_t` value. -/
def powToUInt32 (e : Int) : Except Error Nat :=
  if e < 0 then .ok 0
  else if e < 32 then .ok (2 ^ e.toNat)
  else .error .notRepresentable

/-- Method `Parser::parseNumOfColors`. -/
def parseNumOfColors (charSigned : Bool) (pic : BMP) (m_data : List Byte) : Except Error BMP :=
  match read4 m_data 46 with
  | .error e => .error e
  | .ok numOfColorsArray =>
    let numOfColors := bytesToUnsignedInt charSigned numOfColorsArray
    if numOfColors = 0 then
      match powToUInt32 (pic.getBitsPerPixel charSigned) with
      | .error e => .error e
      | .ok numOfColors => .ok { pic with m_numOfColors := numOfColors }
    else .ok { pic with m_numOfColors := numOfColors }

/-- Method `Parser::parseDIBHeader`. -/
def parseDIBHeader (charSigned : Bool) (pic : BMP) (m_data : List Byte) : Except Error BMP := do
  let pic ← parseHeaderSize charSigned pic m_data
  let pic ← parseBitmapWidth charSigned pic m_data
  let pic ← parseBitmapHeight charSigned pic m_data
  let pic ← parseConstant charSigned pic m_data
  let pic ← parseBitsPerPixel charSigned pic m_data
  let pic ← parseCompression charSigned pic m_data
  let pic ← parseBitmapSizeWithoutCompression charSigned pic m_data
  parseNumOfColors charSigned pic m_data

/-- The loop of `Parser::parseColorPallete`: `count` iterations are left, the
`uint32_t currentColor` and the local map `colors` are the state. -/
def parseColorPalleteLoop (m_data : List Byte) :
    (count currentColor : Nat) → Palette → Except Error Palette
  | 0, _, colors => .ok colors
  | count + 1, currentColor, colors =>
    match readAt m_data ((currentColor + 3) % 4294967296), readAt m_data currentColor,
      readAt m_data ((currentColor + 1) % 4294967296),
      readAt m_data ((currentColor + 2) % 4294967296) with
    | .ok key, .ok r, .ok g, .ok b =>
      parseColorPalleteLoop m_data count ((currentColor + 4) % 4294967296)
        (colors.insert key ⟨r, g, b⟩)
    | _, _, _, _ => .error .outOfBounds

/-- Method `Parser::parseColorPallete`. -/
def parseColorPallete (charSigned : Bool) (pic : BMP) (m_data : List Byte) : Except Error BMP :=
  if pic.getBitsPerPixel charSigned = 8 then
    match parseColorPalleteLoop m_data pic.getNumOfColors 54 Palette.empty with
    | .error e => .error e
    | .ok colors => .ok { pic with m_colors := colors }
  else .ok pic

/-- The three local matrices `red`, `green`, `blue` of `Parser::parseBitmapArray`. -/
structure Planes where
  red : Mat
  green : Mat
  blue : Mat

/-- Inner loop of the 24-bit branch, for row `i`: `cols` iterations are left,
`j` is the column and `index` the `uint32_t` read position. -/
def row24 (charSigned : Bool) (m_data : List Byte) (i : Nat) :
    (cols j index : Nat) → Planes → Except Error (Nat × Planes)
  | 0, _, index, p => .ok (index, p)
  | cols + 1, j, index, p =>
    match readAt m_data index, readAt m_data ((index + 1) % 4294967296),
      readAt m_data ((index + 2) % 4294967296) with
    | .ok r, .ok g, .ok b =>
      row24 charSigned m_data i cols (j + 1) ((index + 3) % 4294967296)
        ⟨p.red.set i j (charToInt charSigned r), p.green.set i j (charToInt charSigned g),
          p.blue.set i j (charToInt charSigned b)⟩
    | _, _, _ => .error .outOfBounds

/-- Outer loop of the 24-bit branch: `rows` iterations are left, `i` is the row. -/
def rows24 (charSigned : Bool) (m_data : List Byte) (width padding : Nat) :
    (rows i index : Nat) → Planes → Except Error (Nat × Planes)
  | 0, _, index, p => .ok (index, p)
  | rows + 1, i, index, p =>
    match row24 charSigned m_data i width 0 index p with
    | .error e => .error e
    | .ok (index, p) =>
      rows24 charSigned m_data width padding rows (i + 1) ((index + padding) % 4294967296) p

/-- Inner loop of the indexed branch, for row `i`.  The map is copied for every
pixel (`auto colors = m_picture->getColors()`), and `colors[colorNum]` on the
copy yields the default-constructed `Color` for an absent key. -/
def rowIndexed (charSigned : Bool) (defaultColor : Color) (palette : Palette)
    (m_data : List Byte) (i : Nat) :
    (cols j index : Nat) → Planes → Except Error (Nat × Planes)
  | 0, _, index, p => .ok (index, p)
  | cols + 1, j, index, p =>
    match readAt m_data index with
    | .error e => .error e
    | .ok colorNum =>
      let c := (palette colorNum).getD defaultColor
      rowIndexed charSigned defaultColor palette m_data i cols (j + 1)
        ((index + 1) % 4294967296)
        ⟨p.red.set i j (c.getRed charSigned), p.green.set i j (c.getGreen charSigned),
          p.blue.set i j (c.getBlue charSigned)⟩

/-- Outer loop of the indexed branch. -/
def rowsIndexed (charSigned : Bool) (defaultColor : Color) (palette : Palette)
    (m_data : List Byte) (width padding : Nat) :
    (rows i index : Nat) → Planes → Except Error (Nat × Planes)
  | 0, _, index, p => .ok (index, p)
  | rows + 1, i, index, p =>
    match rowIndexed charSigned defaultColor palette m_data i width 0 index p with
    | .error e => .error e
    | .ok (index, p) =>
      rowsIndexed charSigned defaultColor palette m_data width padding rows (i + 1)
        ((index + padding) % 4294967296) p

/-- Method `Parser::parseBitmapArray`. -/
def parseBitmapArray (charSigned : Bool) (defaultColor : Color) (pic : BMP)
    (m_data : List Byte) : Except Error BMP :=
  let planes : Planes :=
    ⟨Mat.create pic.getBitMapHeight pic.getBitMapWidth,
      Mat.create pic.getBitMapHeight pic.getBitMapWidth,
      Mat.create pic.getBitMapHeight pic.getBitMapWidth⟩
  let index := pic.getPixelArrayAddress
  let decoded :=
    if pic.getBitsPerPixel charSigned = 24 then
      let padding := pic.getBitMapWidth % 4
      rows24 charSigned m_data pic.getBitMapWidth padding pic.getBitMapHeight 0 index planes
    else
      let padding := 4 - pic.getBitMapWidth % 4
      rowsIndexed charSigned defaultColor pic.getColors m_data pic.getBitMapWidth padding
        pic.getBitMapHeight 0 index planes
  match decoded with
  | .error e => .error e
  | .ok (_, p) => .ok { pic with m_red := p.red, m_green := p.green, m_blue := p.blue }

/-- The constructor `Parser::Parser` on the bytes `m_data` of the file, from the
descriptor `fresh` made by `std::make_unique<BMP>()`; the result is what
`getPicture` returns. -/
def Parser (charSigned : Bool) (fresh : BMP) (defaultColor : Color) (m_data : List Byte) :
    Except Error BMP := do
  let pic ← parseHeader charSigned fresh m_data
  let pic ← parseDIBHeader charSigned pic m_data
  let pic ← parseColorPallete charSigned pic m_data
  parseBitmapArray charSigned defaultColor pic m_data

/-- The descriptor reached once the fixed-offset stages from `parseMagic` to
`parseBitmapSizeWithoutCompression` have all stored their field. -/
def headerFields (charSigned : Bool) (fresh : BMP) (m_data : List Byte)
    (h : 50 ≤ m_data.length) : BMP :=
  { fresh with
    m_magic := (m_data[0], m_data[1])
    m_bmpFileSize := bytesToUnsignedInt charSigned ![m_data[2], m_data[3], m_data[4], m_data[5]]
    m_pixelArrayAddress :=
      bytesToUnsignedInt charSigned ![m_data[10], m_data[11], m_data[12], m_data[13]]
    m_headerSize :=
      bytesToUnsignedInt charSigned ![m_data[14], m_data[15], m_data[16], m_data[17]]
    m_bitmapWidth := bytesToSignedInt charSigned ![m_data[18], m_data[19], m_data[20], m_data[21]]
    m_bitmapHeight :=
      bytesToSignedInt charSigned ![m_data[22], m_data[23], m_data[24], m_data[25]]
    m_constant := (m_data[26], m_data[27])
    m_compression :=
      bytesToUnsignedInt charSigned ![m_data[30], m_data[31], m_data[32], m_data[33]]
    m_bitmapSizeWithoutCompression :=
      bytesToUnsignedInt charSigned ![m_data[34], m_data[35], m_data[36], m_data[37]] }

/-- The stages after the last check of the DIB header: `parseNumOfColors`,
`parseColorPallete`, `parseBitmapArray`. -/
def decodeBody (charSigned : Bool) (defaultColor : Color) (pic : BMP) (m_data : List Byte) :
    Except Error BMP := do
  let pic ← parseNumOfColors charSigned pic m_data
  let pic ← parseColorPallete charSigned pic m_data
  parseBitmapArray charSigned defaultColor pic m_data

/-- A 54-byte file: magic `BM`, pixel array at 54, header size 40, width 0,
height 0, planes 1, depth marker 0, compression 0, declared colour count 0. -/
def emptyImage : List Byte :=
  [66, 77, 0, 0, 0, 54, 0, 0, 0, 0, 0, 0, 0, 54,
   0, 0, 0, 40, 0, 0, 0, 0, 0, 0, 0, 0, 0, 1, 0, 0,
   0, 0, 0, 0, 0, 0, 0, 0, 0, 0, 0, 0, 0, 0, 0, 0,
   0, 0, 0, 0, 0, 0, 0, 0]

/-- The file `emptyImage` with file size bytes 0, 0, 1, 128 and pixel array
offset bytes 0, 0, 1, 128. -/
def highByteSizes : List Byte := (((emptyImage.set 4 1).set 5 128).set 12 1).set 13 128

/-- A descriptor whose `m_bitsPerPixel[1]` is 8 at construction. -/
def fresh8 : BMP := { BMP.zero with m_bitsPerPixel := (0, 8) }

/-- A 58-byte file: the header of `emptyImage` with declared colour count 1,
followed by the palette entry 10, 20, 30 with key 7. -/
def paletteImage : List Byte := emptyImage.set 49 1 ++ [10, 20, 30, 7]

/-- The descriptor decoded from `paletteImage`, starting from `fresh8`. -/
def paletteImageDecoded : BMP :=
  { fresh8 with
    m_magic := (66, 77), m_bmpFileSize := 54, m_pixelArrayAddress := 54, m_headerSize := 40,
    m_constant := (0, 1), m_numOfColors := 1,
    m_colors := Palette.empty.insert 7 ⟨10, 20, 30⟩ }

/-- A descriptor whose `m_bitsPerPixel[1]` is 32. -/
def depth32 : BMP := { BMP.zero with m_bitsPerPixel := (0, 32) }

/-- A descriptor whose `m_bitsPerPixel[1]` is the byte 255, the `char` -1 where
plain `char` is signed. -/
def depth255 : BMP := { BMP.zero with m_bitsPerPixel := (0, 255) }

/-- A descriptor of depth 8 with two palette entries declared. -/
def twoColors : BMP := { fresh8 with m_numOfColors := 2 }

/-- The header of `emptyImage` followed by two palette entries with the same
key 7: 1, 2, 3 and then 4, 5, 6. -/
def twoColorsImage : List Byte := emptyImage ++ [1, 2, 3, 7, 4, 5, 6, 7]

/-- A descriptor of depth 8 with `2^30` palette entries declared. -/
def wrapPalette : BMP := { fresh8 with m_numOfColors := 1073741824 }

/-- A buffer of `54 + 4 * 2^30` bytes, all zero but the last, which is 1. -/
def wrapBuffer : List Byte := List.replicate 4294967349 0 ++ [1]

/-- The byte of the buffer at offset `k` (0 past the end). -/
def byteAt (m_data : List Byte) (k : Nat) : Byte := (m_data[k]?).getD 0

/-- A descriptor whose `m_bitsPerPixel[1]` is 24 at construction. -/
def fresh24 : BMP := { BMP.zero with m_bitsPerPixel := (0, 24) }

/-- A 70-byte file: magic `BM`, file size 70, pixel array at 54, header size 40,
width 2, height 2, planes 1, depth marker 0, compression 0, then two rows of
two 3-byte pixels, each row followed by 2 padding bytes. -/
def sample24 : List Byte :=
  [66, 77, 0, 0, 0, 70, 0, 0, 0, 0, 0, 0, 0, 54,
   0, 0, 0, 40, 0, 0, 0, 2, 0, 0, 0, 2, 0, 1, 0, 0,
   0, 0, 0, 0, 0, 0, 0, 0, 0, 0, 0, 0, 0, 0, 0, 0,
   0, 0, 0, 0, 0, 0, 0, 0,
   1, 2, 3, 4, 5, 6, 0, 0,
   7, 8, 9, 10, 11, 12, 0, 0]

/-- The descriptor with which `parseBitmapArray` is entered on `sample24` when
the depth is 24. -/
def sample24State : BMP :=
  { fresh24 with m_pixelArrayAddress := 54, m_bitmapWidth := 2, m_bitmapHeight := 2 }

/-- A buffer of `2^32 + 3` bytes: `2^32` zero bytes followed by 1, 1, 1. -/
def wrapPixels : List Byte := List.replicate 4294967296 0 ++ [1, 1, 1]

/-- A 24-bit descriptor of one pixel whose pixel array starts at `2^32 - 1`. -/
def wrap24 : BMP :=
  { fresh24 with m_pixelArrayAddress := 4294967295, m_bitmapWidth := 1, m_bitmapHeight := 1 }

/-- An indexed descriptor of one row of two pixels whose pixel array starts at
`2^32 - 1`, with palette keys 0 and 1. -/
def wrapIndexed : BMP :=
  { fresh8 with
    m_pixelArrayAddress := 4294967295, m_bitmapWidth := 2, m_bitmapHeight := 1,
    m_colors := (Palette.empty.insert 0 ⟨10, 20, 30⟩).insert 1 ⟨40, 50, 60⟩ }

/-- An indexed descriptor of one pixel at offset 54 whose palette has the single
key 7. -/
def absentKeyState : BMP :=
  { fresh8 with
    m_pixelArrayAddress := 54, m_bitmapWidth := 1, m_bitmapHeight := 1,
    m_colors := Palette.empty.insert 7 ⟨10, 20, 30⟩ }

/-- The header of `emptyImage` followed by the single index byte 9. -/
def absentKeyImage : List Byte := emptyImage ++ [9]

/-- The header of `emptyImage` followed by the single index byte 7. -/
def presentKeyImage : List Byte := emptyImage ++ [7]

/-- Heights and widths of the three matrices. -/
def Planes.dims (p : Planes) : (Nat × Nat) × (Nat × Nat) × (Nat × Nat) :=
  ((p.red.height, p.red.width), (p.green.height, p.green.width), (p.blue.height, p.blue.width))

/-- The descriptor decoded from `sample24`, starting from `fresh24`. -/
def sample24Decoded : BMP :=
  { fresh24 with
    m_magic := (66, 77), m_bmpFileSize := 70, m_pixelArrayAddress := 54, m_headerSize := 40,
    m_bitmapWidth := 2, m_bitmapHeight := 2, m_constant := (0, 1), m_numOfColors := 16777216,
    m_red := ((((Mat.create 2 2).set 0 0 1).set 0 1 4).set 1 0 7).set 1 1 10,
    m_green := ((((Mat.create 2 2).set 0 0 2).set 0 1 5).set 1 0 8).set 1 1 11,
    m_blue := ((((Mat.create 2 2).set 0 0 3).set 0 1 6).set 1 0 9).set 1 1 12 }

/-- A 57-byte file of depth-marker 0 with width 1 and height 1 whose single
pixel is the bytes 128, 255, 200. -/
def highPixelImage : List Byte := ((emptyImage.set 21 1).set 25 1) ++ [128, 255, 200]

/-- The 54 header bytes of the 2 x 2 scenario: magic `BM`, file size 70, pixel
array at 54, header size 40, width 2, height 2, planes 1, depth marker 0,
compression 0, declared colour count 0. -/
def scenarioHeader : List Byte :=
  [66, 77, 0, 0, 0, 70, 0, 0, 0, 0, 0, 0, 0, 54,
   0, 0, 0, 40, 0, 0, 0, 2, 0, 0, 0, 2, 0, 1, 0, 0,
   0, 0, 0, 0, 0, 0, 0, 0, 0, 0, 0, 0, 0, 0, 0, 0,
   0, 0, 0, 0, 0, 0, 0, 0]

/-- The 70-byte buffer of the 2 x 2 scenario with pixel bytes `px` and padding
bytes `pad`: two rows of 6 pixel bytes, each followed by 2 padding bytes. -/
def scenario24 (px : Fin 12 → Byte) (pad : Fin 4 → Byte) : List Byte :=
  scenarioHeader ++
    [px 0, px 1, px 2, px 3, px 4, px 5, pad 0, pad 1,
     px 6, px 7, px 8, px 9, px 10, px 11, pad 2, pad 3]

/-- Sign extension of a byte to an integer in -128..127. -/
def signExtend8 (b : Byte) : Int := if b.val < 128 then (b.val : Int) else (b.val : Int) - 256

/-! ## Arithmetic of the byte conversions -/

theorem toUInt32_eq (x : Int) : ((toUInt32 x : Nat) : Int) = x % 4294967296 := by
  unfold toUInt32; omega

theorem bytesToUnsignedInt_eq (cs : Bool) (bytes : Fin 4 → Byte) :
    bytesToUnsignedInt cs bytes =
      toUInt32 (charToInt cs (bytes 0) * 16777216 + charToInt cs (bytes 1) * 65536
        + charToInt cs (bytes 2) * 256 + charToInt cs (bytes 3)) := by
  simp only [bytesToUnsignedInt, List.foldl, Nat.shiftLeft_eq, toUInt32]
  generalize charToInt cs (bytes 0) = a
  generalize charToInt cs (bytes 1) = b
  generalize charToInt cs (bytes 2) = c
  generalize charToInt cs (bytes 3) = d
  omega

theorem bytesToSignedInt_eq (cs : Bool) (bytes : Fin 4 → Byte) :
    bytesToSignedInt cs bytes =
      toInt32 (charToInt cs (bytes 0) * 16777216 + charToInt cs (bytes 1) * 65536
        + charToInt cs (bytes 2) * 256 + charToInt cs (bytes 3)) := by
  simp only [bytesToSignedInt, List.foldl, toInt32]
  generalize charToInt cs (bytes 0) = a
  generalize charToInt cs (bytes 1) = b
  generalize charToInt cs (bytes 2) = c
  generalize charToInt cs (bytes 3) = d
  omega

theorem readAt_ok (d : List Byte) (i : Nat) (h : i < d.length) : readAt d i = .ok d[i] := by
  simp [readAt, List.getElem?_eq_getElem h]

theorem read4_ok (d : List Byte) (i : Nat) (h : i + 3 < d.length) :
    read4 d i = .ok ![d[i], d[i + 1], d[i + 2], d[i + 3]] := by
  simp [read4, readAt_ok d i (by omega), readAt_ok d (i + 1) (by omega),
    readAt_ok d (i + 2) (by omega), readAt_ok d (i + 3) h]

theorem charToInt_eq_iff (cs : Bool) (c : Byte) (n : Nat) (hn : n < 128) :
    charToInt cs c = (n : Int) ↔ c.val = n := by
  have := c.isLt
  unfold charToInt
  split <;> omega

theorem byte_val_eq (c : Byte) (n : Nat) (hn : n < 256) : c = ⟨n, hn⟩ ↔ c.val = n := by
  constructor
  · intro h; rw [h]
  · intro h; exact Fin.ext h



theorem parseMagic_eq (cs : Bool) (pic : BMP) (d : List Byte) (h : 2 ≤ d.length) :
    parseMagic cs pic d =
      if d[0] = 66 ∧ d[1] = 77 then .ok { pic with m_magic := (d[0], d[1]) }
      else .error .magic := by
  have e0 : charToInt cs d[0] = 66 ↔ d[0] = 66 := by
    exact (charToInt_eq_iff cs _ 66 (by decide)).trans (byte_val_eq d[0] 66 (by decide)).symm
  have e1 : charToInt cs d[1] = 77 ↔ d[1] = 77 := by
    exact (charToInt_eq_iff cs _ 77 (by decide)).trans (byte_val_eq d[1] 77 (by decide)).symm
  simp only [parseMagic, readAt_ok d 0 (by omega), readAt_ok d 1 (by omega), ne_eq, e0, e1]
  by_cases h0 : d[0] = 66 <;> by_cases h1 : d[1] = 77 <;> simp [h0, h1]


theorem parseBmpFileSize_eq (cs : Bool) (pic : BMP) (d : List Byte) (h : 50 ≤ d.length) :
    parseBmpFileSize cs pic d =
      .ok { pic with m_bmpFileSize := bytesToUnsignedInt cs ![d[2], d[3], d[4], d[5]] } := by
  simp (disch := omega) only [parseBmpFileSize, read4, readAt_ok, bind, Except.bind, pure,
    Except.pure, Nat.reduceAdd]

theorem parsePixelArrayAddress_eq (cs : Bool) (pic : BMP) (d : List Byte) (h : 50 ≤ d.length) :
    parsePixelArrayAddress cs pic d =
      .ok { pic with
        m_pixelArrayAddress := bytesToUnsignedInt cs ![d[10], d[11], d[12], d[13]] } := by
  simp (disch := omega) only [parsePixelArrayAddress, read4, readAt_ok, bind, Except.bind, pure,
    Except.pure, Nat.reduceAdd]

theorem parseHeaderSize_eq (cs : Bool) (pic : BMP) (d : List Byte) (h : 50 ≤ d.length) :
    parseHeaderSize cs pic d =
      if bytesToUnsignedInt cs ![d[14], d[15], d[16], d[17]] ≠ 40 then .error .headerSize
      else .ok { pic with m_headerSize := bytesToUnsignedInt cs ![d[14], d[15], d[16], d[17]] } := by
  simp (disch := omega) only [parseHeaderSize, read4, readAt_ok, Nat.reduceAdd]

theorem parseBitmapWidth_eq (cs : Bool) (pic : BMP) (d : List Byte) (h : 50 ≤ d.length) :
    parseBitmapWidth cs pic d =
      .ok { pic with m_bitmapWidth := bytesToSignedInt cs ![d[18], d[19], d[20], d[21]] } := by
  simp (disch := omega) only [parseBitmapWidth, read4, readAt_ok, bind, Except.bind, pure,
    Except.pure, Nat.reduceAdd]

theorem parseBitmapHeight_eq (cs : Bool) (pic : BMP) (d : List Byte) (h : 50 ≤ d.length) :
    parseBitmapHeight cs pic d =
      .ok { pic with m_bitmapHeight := bytesToSignedInt cs ![d[22], d[23], d[24], d[25]] } := by
  simp (disch := omega) only [parseBitmapHeight, read4, readAt_ok, bind, Except.bind, pure,
    Except.pure, Nat.reduceAdd]

theorem parseConstant_eq (cs : Bool) (pic : BMP) (d : List Byte) (h : 50 ≤ d.length) :
    parseConstant cs pic d =
      if d[26] = 0 ∧ d[27] = 1 then .ok { pic with m_constant := (d[26], d[27]) }
      else .error .constant := by
  have e0 : charToInt cs d[26] = 0 ↔ d[26] = 0 :=
    (charToInt_eq_iff cs _ 0 (by decide)).trans (byte_val_eq d[26] 0 (by decide)).symm
  have e1 : charToInt cs d[27] = 1 ↔ d[27] = 1 :=
    (charToInt_eq_iff cs _ 1 (by decide)).trans (byte_val_eq d[27] 1 (by decide)).symm
  simp only [parseConstant, readAt_ok d 26 (by omega), readAt_ok d 27 (by omega), ne_eq, e0, e1]
  by_cases h0 : d[26] = 0 <;> by_cases h1 : d[27] = 1 <;> simp [h0, h1]

theorem depthMarker_zero_iff (cs : Bool) (c0 c1 : Byte) :
    toUInt16 (((toUInt16 ((toUInt16 (charToInt cs c0) <<< 8 : Nat) : Int) : Nat) : Int)
      + charToInt cs c1) = 0 ↔ c0 = 0 ∧ c1 = 0 := by
  have key : toUInt16 (((toUInt16 ((toUInt16 (charToInt cs c0) <<< 8 : Nat) : Int) : Nat) : Int)
      + charToInt cs c1) = 0 ↔ c0.val = 0 ∧ c1.val = 0 := by
    have h0 := c0.isLt
    have h1 := c1.isLt
    simp only [toUInt16, charToInt, Nat.shiftLeft_eq]
    split <;> split <;> omega
  exact key.trans (and_congr (byte_val_eq c0 0 (by decide)).symm
    (byte_val_eq c1 0 (by decide)).symm)

theorem parseBitsPerPixel_eq (cs : Bool) (pic : BMP) (d : List Byte) (h : 50 ≤ d.length) :
    parseBitsPerPixel cs pic d =
      if d[28] = 0 ∧ d[29] = 0 then .ok pic else .error .bitsPerPixel := by
  simp only [parseBitsPerPixel, readAt_ok d 28 (by omega), readAt_ok d 29 (by omega), ne_eq,
    depthMarker_zero_iff]
  by_cases h0 : d[28] = 0 ∧ d[29] = 0 <;> simp [h0]


theorem bytesToUnsignedInt_eq_small (cs : Bool) (b : Fin 4 → Byte) (n : Nat) (hn : n < 128) :
    bytesToUnsignedInt cs b = n ↔
      (b 0).val = 0 ∧ (b 1).val = 0 ∧ (b 2).val = 0 ∧ (b 3).val = n := by
  have h0 := (b 0).isLt
  have h1 := (b 1).isLt
  have h2 := (b 2).isLt
  have h3 := (b 3).isLt
  rw [bytesToUnsignedInt_eq]
  simp only [toUInt32, charToInt]
  split <;> split <;> split <;> split <;> omega

theorem beU32_eq_small (b0 b1 b2 b3 : Byte) (n : Nat) (hn : n < 256) :
    beU32 b0 b1 b2 b3 = n ↔ b0.val = 0 ∧ b1.val = 0 ∧ b2.val = 0 ∧ b3.val = n := by
  have h3 := b3.isLt
  unfold beU32
  omega

theorem bytesToUnsignedInt_eq_beU32_small (cs : Bool) (b0 b1 b2 b3 : Byte) (n : Nat)
    (hn : n < 128) : bytesToUnsignedInt cs ![b0, b1, b2, b3] = n ↔ beU32 b0 b1 b2 b3 = n := by
  rw [bytesToUnsignedInt_eq_small cs _ n hn, beU32_eq_small b0 b1 b2 b3 n (by omega)]
  rfl

theorem parseCompression_eq (cs : Bool) (pic : BMP) (d : List Byte) (h : 50 ≤ d.length) :
    parseCompression cs pic d =
      if bytesToUnsignedInt cs ![d[30], d[31], d[32], d[33]] ≠ 0 then .error .compression
      else .ok { pic with m_compression := bytesToUnsignedInt cs ![d[30], d[31], d[32], d[33]] } := by
  simp (disch := omega) only [parseCompression, read4, readAt_ok, Nat.reduceAdd]

theorem parseBitmapSizeWithoutCompression_eq (cs : Bool) (pic : BMP) (d : List Byte)
    (h : 50 ≤ d.length) :
    parseBitmapSizeWithoutCompression cs pic d =
      .ok { pic with
        m_bitmapSizeWithoutCompression :=
          bytesToUnsignedInt cs ![d[34], d[35], d[36], d[37]] } := by
  simp (disch := omega) only [parseBitmapSizeWithoutCompression, read4, readAt_ok, bind,
    Except.bind, pure, Except.pure, Nat.reduceAdd]

theorem parseNumOfColors_eq (cs : Bool) (pic : BMP) (d : List Byte) (h : 50 ≤ d.length) :
    parseNumOfColors cs pic d =
      if bytesToUnsignedInt cs ![d[46], d[47], d[48], d[49]] = 0 then
        match powToUInt32 (pic.getBitsPerPixel cs) with
        | .error e => .error e
        | .ok numOfColors => .ok { pic with m_numOfColors := numOfColors }
      else .ok { pic with m_numOfColors := bytesToUnsignedInt cs ![d[46], d[47], d[48], d[49]] } := by
  simp (disch := omega) only [parseNumOfColors, read4, readAt_ok, Nat.reduceAdd]

theorem bind_ok_iff {α β : Type} (x : Except Error α) (f : α → Except Error β) (b : β) :
    x >>= f = .ok b ↔ ∃ a, x = .ok a ∧ f a = .ok b := by
  cases x with
  | error e => simp [bind, Except.bind]
  | ok a => simp [bind, Except.bind]

theorem readAt_ok_lt (d : List Byte) (i : Nat) (c : Byte) (h : readAt d i = .ok c) :
    i < d.length := by
  by_contra hlt
  have : d[i]? = none := List.getElem?_eq_none (by omega)
  simp [readAt, this] at h

theorem read4_ok_lt (d : List Byte) (i : Nat) (b : Fin 4 → Byte) (h : read4 d i = .ok b) :
    i + 3 < d.length := by
  unfold read4 at h
  split at h
  · rename_i c0 c1 c2 c3 h0 h1 h2 h3
    exact readAt_ok_lt d (i + 3) c3 h3
  · cases h

theorem parseNumOfColors_ok_length (cs : Bool) (pic q : BMP) (d : List Byte)
    (h : parseNumOfColors cs pic d = .ok q) : 50 ≤ d.length := by
  unfold parseNumOfColors at h
  split at h
  · cases h
  · rename_i b hb
    have := read4_ok_lt d 46 b hb
    omega

theorem Parser_ok_length (cs : Bool) (fresh : BMP) (dflt : Color) (d : List Byte) (pic : BMP)
    (h : Parser cs fresh dflt d = .ok pic) : 50 ≤ d.length := by
  unfold Parser at h
  obtain ⟨p1, -, h⟩ := (bind_ok_iff _ _ _).1 h
  obtain ⟨p2, h2, -⟩ := (bind_ok_iff _ _ _).1 h
  unfold parseDIBHeader at h2
  obtain ⟨q1, -, h2⟩ := (bind_ok_iff _ _ _).1 h2
  obtain ⟨q2, -, h2⟩ := (bind_ok_iff _ _ _).1 h2
  obtain ⟨q3, -, h2⟩ := (bind_ok_iff _ _ _).1 h2
  obtain ⟨q4, -, h2⟩ := (bind_ok_iff _ _ _).1 h2
  obtain ⟨q5, -, h2⟩ := (bind_ok_iff _ _ _).1 h2
  obtain ⟨q6, -, h2⟩ := (bind_ok_iff _ _ _).1 h2
  obtain ⟨q7, -, h2⟩ := (bind_ok_iff _ _ _).1 h2
  exact parseNumOfColors_ok_length cs q7 p2 d h2


/-! ## The constructor as a cascade of checks -/

theorem Parser_eq (cs : Bool) (fresh : BMP) (dflt : Color) (d : List Byte)
    (h : 50 ≤ d.length) :
    Parser cs fresh dflt d =
      if ¬ (d[0] = 66 ∧ d[1] = 77) then .error .magic
      else if bytesToUnsignedInt cs ![d[14], d[15], d[16], d[17]] ≠ 40 then .error .headerSize
      else if ¬ (d[26] = 0 ∧ d[27] = 1) then .error .constant
      else if ¬ (d[28] = 0 ∧ d[29] = 0) then .error .bitsPerPixel
      else if bytesToUnsignedInt cs ![d[30], d[31], d[32], d[33]] ≠ 0 then .error .compression
      else decodeBody cs dflt (headerFields cs fresh d h) d := by
  simp only [Parser, parseHeader, parseDIBHeader, decodeBody, bind, Except.bind,
    parseMagic_eq cs _ d (by omega), parseBmpFileSize_eq cs _ d h,
    parsePixelArrayAddress_eq cs _ d h, parseHeaderSize_eq cs _ d h, parseBitmapWidth_eq cs _ d h,
    parseBitmapHeight_eq cs _ d h, parseConstant_eq cs _ d h, parseBitsPerPixel_eq cs _ d h,
    parseCompression_eq cs _ d h, parseBitmapSizeWithoutCompression_eq cs _ d h]
  by_cases h1 : d[0] = 66 ∧ d[1] = 77
  · by_cases h2 : bytesToUnsignedInt cs ![d[14], d[15], d[16], d[17]] = 40
    · by_cases h3 : d[26] = 0 ∧ d[27] = 1
      · by_cases h4 : d[28] = 0 ∧ d[29] = 0
        · by_cases h5 : bytesToUnsignedInt cs ![d[30], d[31], d[32], d[33]] = 0
          · simp only [h1, h2, h3, h4, h5, and_self, not_true_eq_false, ne_eq, if_true, if_false,
              headerFields]
          · simp [h1, h2, h3, h4, h5]
        · simp [h1, h2, h3, h4]
      · simp [h1, h2, h3]
    · simp [h1, h2]
  · simp [h1]

/-! ## Failures of the loops -/

theorem parseColorPalleteLoop_error (d : List Byte) (n cur : Nat) (colors : Palette) (e : Error)
    (h : parseColorPalleteLoop d n cur colors = .error e) : e = .outOfBounds := by
  induction n generalizing cur colors with
  | zero => simp [parseColorPalleteLoop] at h
  | succ n ih =>
    unfold parseColorPalleteLoop at h
    split at h
    · exact ih _ _ h
    · cases h; rfl

theorem row24_error (cs : Bool) (d : List Byte) (i cols j index : Nat) (p : Planes) (e : Error)
    (h : row24 cs d i cols j index p = .error e) : e = .outOfBounds := by
  induction cols generalizing j index p with
  | zero => simp [row24] at h
  | succ n ih =>
    unfold row24 at h
    split at h
    · exact ih _ _ _ h
    · cases h; rfl

theorem rows24_error (cs : Bool) (d : List Byte) (w pad rows i index : Nat) (p : Planes)
    (e : Error) (h : rows24 cs d w pad rows i index p = .error e) : e = .outOfBounds := by
  induction rows generalizing i index p with
  | zero => simp [rows24] at h
  | succ n ih =>
    unfold rows24 at h
    split at h
    · rename_i e1 h1
      cases h
      exact row24_error cs d _ _ _ _ _ _ h1
    · exact ih _ _ _ h

theorem rowIndexed_error (cs : Bool) (dflt : Color) (pal : Palette) (d : List Byte)
    (i cols j index : Nat) (p : Planes) (e : Error)
    (h : rowIndexed cs dflt pal d i cols j index p = .error e) : e = .outOfBounds := by
  induction cols generalizing j index p with
  | zero => simp [rowIndexed] at h
  | succ n ih =>
    unfold rowIndexed at h
    split at h
    · rename_i e1 h1
      cases h
      unfold readAt at h1
      split at h1
      · cases h1
      · cases h1; rfl
    · exact ih _ _ _ h

theorem rowsIndexed_error (cs : Bool) (dflt : Color) (pal : Palette) (d : List Byte)
    (w pad rows i index : Nat) (p : Planes) (e : Error)
    (h : rowsIndexed cs dflt pal d w pad rows i index p = .error e) : e = .outOfBounds := by
  induction rows generalizing i index p with
  | zero => simp [rowsIndexed] at h
  | succ n ih =>
    unfold rowsIndexed at h
    split at h
    · rename_i e1 h1
      cases h
      exact rowIndexed_error cs dflt pal d _ _ _ _ _ _ h1
    · exact ih _ _ _ h

theorem parseColorPallete_error (cs : Bool) (pic : BMP) (d : List Byte) (e : Error)
    (h : parseColorPallete cs pic d = .error e) : e = .outOfBounds := by
  unfold parseColorPallete at h
  split at h
  · split at h
    · rename_i e1 h1
      cases h
      exact parseColorPalleteLoop_error d _ _ _ _ h1
    · cases h
  · cases h

theorem parseBitmapArray_error (cs : Bool) (dflt : Color) (pic : BMP) (d : List Byte) (e : Error)
    (h : parseBitmapArray cs dflt pic d = .error e) : e = .outOfBounds := by
  unfold parseBitmapArray at h
  simp only at h
  split at h
  · rename_i e1 h1
    cases h
    split at h1
    · exact rows24_error cs d _ _ _ _ _ _ _ h1
    · exact rowsIndexed_error cs dflt _ d _ _ _ _ _ _ _ h1
  · cases h

theorem parseNumOfColors_error (cs : Bool) (pic : BMP) (d : List Byte) (e : Error)
    (h : parseNumOfColors cs pic d = .error e) : e = .outOfBounds ∨ e = .notRepresentable := by
  unfold parseNumOfColors at h
  split at h
  · rename_i e1 h1
    cases h
    left
    unfold read4 at h1
    split at h1
    · cases h1
    · cases h1; rfl
  · simp only at h
    split at h
    · split at h
      · rename_i e1 h1
        cases h
        right
        unfold powToUInt32 at h1
        split at h1
        · cases h1
        · split at h1
          · cases h1
          · cases h1; rfl
      · cases h
    · cases h

theorem bind_error_iff {α β : Type} (x : Except Error α) (f : α → Except Error β) (e : Error) :
    x >>= f = .error e ↔ x = .error e ∨ ∃ a, x = .ok a ∧ f a = .error e := by
  cases x with
  | error e1 => simp [bind, Except.bind]
  | ok a => simp [bind, Except.bind]

theorem decodeBody_error (cs : Bool) (dflt : Color) (pic : BMP) (d : List Byte) (e : Error)
    (h : decodeBody cs dflt pic d = .error e) : e = .outOfBounds ∨ e = .notRepresentable := by
  unfold decodeBody at h
  rcases (bind_error_iff _ _ _).1 h with h1 | ⟨p1, -, h1⟩
  · exact parseNumOfColors_error cs pic d e h1
  · rcases (bind_error_iff _ _ _).1 h1 with h2 | ⟨p2, -, h2⟩
    · exact Or.inl (parseColorPallete_error cs p1 d e h2)
    · exact Or.inl (parseBitmapArray_error cs dflt p2 d e h2)


/-! ## Magic and header size -/

/-- C1: a buffer of at least two bytes whose first two bytes are not `B`, `M`
makes the constructor fail with the magic error, whatever the descriptor it
starts from and whatever the other bytes are; no descriptor is produced. -/
theorem Parser_rejects_bad_magic (cs : Bool) (fresh : BMP) (dflt : Color) (d : List Byte)
    (hlen : 2 ≤ d.length) (hmagic : ¬ (d[0] = 66 ∧ d[1] = 77)) :
    Parser cs fresh dflt d = .error .magic ∧ ∀ pic, Parser cs fresh dflt d ≠ .ok pic := by
  have h : Parser cs fresh dflt d = .error .magic := by
    simp only [Parser, parseHeader, bind, Except.bind, parseMagic_eq cs _ d hlen, hmagic,
      if_false]
  exact ⟨h, fun pic hp => by rw [h] at hp; cases hp⟩

theorem Parser_rejects_bad_magic_witness :
    (2 ≤ (emptyImage.set 0 88).length ∧
      ¬ ((emptyImage.set 0 88)[0] = 66 ∧ (emptyImage.set 0 88)[1] = 77)) ∧
    Parser true BMP.zero ⟨0, 0, 0⟩ (emptyImage.set 0 88) = .error .magic :=
  ⟨⟨by decide, by decide⟩,
    (Parser_rejects_bad_magic true BMP.zero ⟨0, 0, 0⟩ (emptyImage.set 0 88) (by decide)
      (by decide)).1⟩

/-- C2: on a buffer of at least 54 bytes with magic `BM`, the constructor fails
with the header-size error exactly when the big-endian value of bytes 14..17
differs from 40; `parseHeaderSize` accepts the bytes 0, 0, 0, 40 and no others. -/
theorem Parser_headerSize_error_iff (cs : Bool) (fresh : BMP) (dflt : Color) (d : List Byte)
    (hlen : 54 ≤ d.length) (hB : d[0] = 66) (hM : d[1] = 77) :
    (Parser cs fresh dflt d = .error .headerSize ↔ beU32 d[14] d[15] d[16] d[17] ≠ 40) ∧
    (∀ pic, (∃ q, parseHeaderSize cs pic d = .ok q) ↔
      (d[14] = 0 ∧ d[15] = 0 ∧ d[16] = 0 ∧ d[17] = 40)) := by
  have h50 : 50 ≤ d.length := by omega
  have hbe := bytesToUnsignedInt_eq_beU32_small cs d[14] d[15] d[16] d[17] 40 (by decide)
  constructor
  · have hne : beU32 d[14] d[15] d[16] d[17] ≠ 40 ↔
        bytesToUnsignedInt cs ![d[14], d[15], d[16], d[17]] ≠ 40 := not_congr hbe.symm
    rw [Parser_eq cs fresh dflt d h50, hne]
    by_cases h2 : bytesToUnsignedInt cs ![d[14], d[15], d[16], d[17]] = 40
    · simp only [hB, hM, and_self, not_true_eq_false, if_false, h2, ne_eq, iff_false]
      intro h
      split at h
      · cases h
      · split at h
        · cases h
        · split at h
          · cases h
          · rcases decodeBody_error cs dflt _ d _ h with h | h <;> cases h
    · simp [hB, hM, h2]
  · intro pic
    rw [parseHeaderSize_eq cs pic d h50]
    have hs := bytesToUnsignedInt_eq_small cs ![d[14], d[15], d[16], d[17]] 40 (by decide)
    have hv : (d[14] = 0 ∧ d[15] = 0 ∧ d[16] = 0 ∧ d[17] = 40) ↔
        (d[14].val = 0 ∧ d[15].val = 0 ∧ d[16].val = 0 ∧ d[17].val = 40) :=
      and_congr (byte_val_eq _ 0 (by decide)) (and_congr (byte_val_eq _ 0 (by decide))
        (and_congr (byte_val_eq _ 0 (by decide)) (byte_val_eq _ 40 (by decide))))
    rw [hv]
    by_cases h2 : bytesToUnsignedInt cs ![d[14], d[15], d[16], d[17]] = 40
    · simp only [h2, ne_eq, not_true_eq_false, if_false]
      exact ⟨fun _ => hs.1 h2, fun _ => ⟨_, rfl⟩⟩
    · simp only [h2, ne_eq, not_false_eq_true, if_true]
      constructor
      · rintro ⟨q, hq⟩; cases hq
      · intro h; exact absurd (hs.2 h) h2

theorem Parser_headerSize_error_iff_witness :
    (54 ≤ (emptyImage.set 16 128).length ∧ (emptyImage.set 16 128)[0] = 66 ∧
      (emptyImage.set 16 128)[1] = 77) ∧
    Parser true BMP.zero ⟨0, 0, 0⟩ (emptyImage.set 16 128) = .error .headerSize :=
  ⟨⟨by decide, by decide, by decide⟩,
    (Parser_headerSize_error_iff true BMP.zero ⟨0, 0, 0⟩ (emptyImage.set 16 128) (by decide)
      (by decide) (by decide)).1.2 (by decide)⟩

/-! ## Successful runs -/

theorem parseNumOfColors_ok (cs : Bool) (p q : BMP) (d : List Byte)
    (h : parseNumOfColors cs p d = .ok q) :
    ∃ n, q = { p with m_numOfColors := n } ∧ (p.getBitsPerPixel cs = 8 → n ≠ 0) := by
  unfold parseNumOfColors at h
  split at h
  · cases h
  · simp only at h
    split at h
    · split at h
      · cases h
      · rename_i n hn
        cases h
        refine ⟨n, rfl, fun h8 => ?_⟩
        rw [h8] at hn
        simp [powToUInt32] at hn
        omega
    · rename_i hne
      cases h
      exact ⟨_, rfl, fun _ => hne⟩

theorem parseColorPallete_ok (cs : Bool) (p q : BMP) (d : List Byte)
    (h : parseColorPallete cs p d = .ok q) :
    (p.getBitsPerPixel cs = 8 ∧ ∃ colors,
      parseColorPalleteLoop d p.getNumOfColors 54 Palette.empty = .ok colors ∧
        q = { p with m_colors := colors }) ∨
    (p.getBitsPerPixel cs ≠ 8 ∧ q = p) := by
  unfold parseColorPallete at h
  split at h
  · rename_i h8
    split at h
    · cases h
    · rename_i colors hc
      cases h
      exact Or.inl ⟨h8, colors, hc, rfl⟩
  · rename_i h8
    cases h
    exact Or.inr ⟨h8, rfl⟩

theorem parseBitmapArray_ok (cs : Bool) (dflt : Color) (p q : BMP) (d : List Byte)
    (h : parseBitmapArray cs dflt p d = .ok q) :
    ∃ r g b, q = { p with m_red := r, m_green := g, m_blue := b } := by
  unfold parseBitmapArray at h
  simp only at h
  split at h
  · cases h
  · cases h
    exact ⟨_, _, _, rfl⟩

theorem parseColorPalleteLoop_mono (d : List Byte) (n cur : Nat) (colors0 colors : Palette)
    (h : parseColorPalleteLoop d n cur colors0 = .ok colors) (K : Byte)
    (hK : (colors0 K).isSome) : (colors K).isSome := by
  induction n generalizing cur colors0 with
  | zero =>
    simp only [parseColorPalleteLoop, Except.ok.injEq] at h
    rw [← h]; exact hK
  | succ n ih =>
    unfold parseColorPalleteLoop at h
    split at h
    · refine ih _ _ h ?_
      unfold Palette.insert
      split
      · rfl
      · exact hK
    · cases h

theorem parseColorPalleteLoop_nonempty (d : List Byte) (n cur : Nat) (colors0 colors : Palette)
    (h : parseColorPalleteLoop d n cur colors0 = .ok colors) (hn : n ≠ 0) :
    ∃ K, (colors K).isSome := by
  cases n with
  | zero => exact absurd rfl hn
  | succ n =>
    unfold parseColorPalleteLoop at h
    split at h
    · rename_i key r g b _ _ _ _
      exact ⟨key, parseColorPalleteLoop_mono d n _ _ _ h key (by simp [Palette.insert])⟩
    · cases h

theorem decodeBody_ok (cs : Bool) (dflt : Color) (p pic : BMP) (d : List Byte)
    (h : decodeBody cs dflt p d = .ok pic) :
    pic.m_magic = p.m_magic ∧ pic.m_bmpFileSize = p.m_bmpFileSize ∧
    pic.m_pixelArrayAddress = p.m_pixelArrayAddress ∧ pic.m_headerSize = p.m_headerSize ∧
    pic.m_bitmapWidth = p.m_bitmapWidth ∧ pic.m_bitmapHeight = p.m_bitmapHeight ∧
    pic.m_constant = p.m_constant ∧ pic.m_bitsPerPixel = p.m_bitsPerPixel ∧
    pic.m_compression = p.m_compression ∧
    pic.m_bitmapSizeWithoutCompression = p.m_bitmapSizeWithoutCompression ∧
    (p.getBitsPerPixel cs = 8 → ∃ K, (pic.m_colors K).isSome) ∧
    (p.getBitsPerPixel cs ≠ 8 → pic.m_colors = p.m_colors) := by
  unfold decodeBody at h
  obtain ⟨p1, h1, h⟩ := (bind_ok_iff _ _ _).1 h
  obtain ⟨p2, h2, h3⟩ := (bind_ok_iff _ _ _).1 h
  obtain ⟨n, rfl, hn⟩ := parseNumOfColors_ok cs p p1 d h1
  obtain ⟨r, g, b, rfl⟩ := parseBitmapArray_ok cs dflt p2 pic d h3
  rcases parseColorPallete_ok cs _ p2 d h2 with ⟨h8, colors, hc, rfl⟩ | ⟨h8, rfl⟩
  · refine ⟨rfl, rfl, rfl, rfl, rfl, rfl, rfl, rfl, rfl, rfl, fun _ => ?_, fun hne => absurd h8 hne⟩
    exact parseColorPalleteLoop_nonempty d _ _ _ _ hc (hn h8)
  · exact ⟨rfl, rfl, rfl, rfl, rfl, rfl, rfl, rfl, rfl, rfl, fun h => absurd h h8, fun _ => rfl⟩

theorem Parser_ok (cs : Bool) (fresh : BMP) (dflt : Color) (d : List Byte) (pic : BMP)
    (h : Parser cs fresh dflt d = .ok pic) :
    ∃ h50 : 50 ≤ d.length,
      (d[0] = 66 ∧ d[1] = 77) ∧ bytesToUnsignedInt cs ![d[14], d[15], d[16], d[17]] = 40 ∧
      (d[26] = 0 ∧ d[27] = 1) ∧ (d[28] = 0 ∧ d[29] = 0) ∧
      bytesToUnsignedInt cs ![d[30], d[31], d[32], d[33]] = 0 ∧
      decodeBody cs dflt (headerFields cs fresh d h50) d = .ok pic := by
  have h50 := Parser_ok_length cs fresh dflt d pic h
  refine ⟨h50, ?_⟩
  rw [Parser_eq cs fresh dflt d h50] at h
  split at h
  · cases h
  · rename_i h1
    split at h
    · cases h
    · rename_i h2
      split at h
      · cases h
      · rename_i h3
        split at h
        · cases h
        · rename_i h4
          split at h
          · cases h
          · rename_i h5
            exact ⟨not_not.1 h1, not_not.1 h2, not_not.1 h3, not_not.1 h4, not_not.1 h5, h⟩


theorem Parser_bitsPerPixel_frame (cs : Bool) (fresh : BMP) (dflt : Color) (d : List Byte)
    (pic : BMP) (h : Parser cs fresh dflt d = .ok pic) :
    pic.m_bitsPerPixel = fresh.m_bitsPerPixel := by
  obtain ⟨h50, -, -, -, -, -, hb⟩ := Parser_ok cs fresh dflt d pic h
  exact (decodeBody_ok cs dflt _ pic d hb).2.2.2.2.2.2.2.1

/-! ## The integer fields -/

theorem bytesToUnsignedInt_unsignedChar (b : Fin 4 → Byte) :
    bytesToUnsignedInt false b = beU32 (b 0) (b 1) (b 2) (b 3) := by
  have h0 := (b 0).isLt
  have h1 := (b 1).isLt
  have h2 := (b 2).isLt
  have h3 := (b 3).isLt
  rw [bytesToUnsignedInt_eq]
  simp only [toUInt32, charToInt, beU32, Bool.false_eq_true, false_and, if_false]
  omega

theorem bytesToSignedInt_unsignedChar (b : Fin 4 → Byte) :
    bytesToSignedInt false b = twosComplement32 (beU32 (b 0) (b 1) (b 2) (b 3)) := by
  have h0 := (b 0).isLt
  have h1 := (b 1).isLt
  have h2 := (b 2).isLt
  have h3 := (b 3).isLt
  rw [bytesToSignedInt_eq]
  simp only [toInt32, charToInt, beU32, twosComplement32, Bool.false_eq_true, false_and, if_false]
  split <;> omega

/-- C3: where plain `char` is signed, `bytesToUnsignedInt` sign-extends every
byte: the bytes 0, 0, 1, 128 give 128 and not the big-endian value 384, and the
decoded `file_size` and `pixel_array_offset` of a buffer holding these bytes at
2..5 and 10..13 are both 128. -/
theorem bytesToUnsignedInt_sign_extends :
    bytesToUnsignedInt true ![0, 0, 1, 128] = 128 ∧ beU32 0 0 1 128 = 384 ∧
    (Parser true BMP.zero ⟨0, 0, 0⟩ highByteSizes).toOption.map
      (fun pic => (pic.m_bmpFileSize, pic.m_pixelArrayAddress)) = some (128, 128) := by
  decide

/-- C4: where plain `char` is signed, `bytesToSignedInt` sign-extends every
byte: the bytes 0, 0, 0, 128 give -128 and not the two's complement reading 128
of the big-endian pattern; the decoded width and height are -128 accordingly. -/
theorem bytesToSignedInt_sign_extends :
    bytesToSignedInt true ![0, 0, 0, 128] = -128 ∧ twosComplement32 (beU32 0 0 0 128) = 128 ∧
    (Parser true BMP.zero ⟨0, 0, 0⟩ (emptyImage.set 21 128)).toOption.map
      (fun pic => pic.m_bitmapWidth) = some (-128) ∧
    (parseBitmapHeight true BMP.zero (emptyImage.set 25 128)).toOption.map
      (fun pic => pic.m_bitmapHeight) = some (-128) := by
  decide

/-! ## Depth marker and compression -/

/-- C5: the constructor never stores a depth.  From a value-initialised
descriptor the file `emptyImage` decodes successfully with `getBitsPerPixel`
equal to 0, which is neither 8 nor 24, while the same file with depth bytes
0, 24 or 0, 8 is rejected with the bits-per-pixel error. -/
theorem Parser_accepts_depth_zero :
    (Parser true BMP.zero ⟨0, 0, 0⟩ emptyImage).toOption.map
      (fun pic => pic.getBitsPerPixel true) = some 0 ∧
    Parser true BMP.zero ⟨0, 0, 0⟩ (emptyImage.set 29 24) = .error .bitsPerPixel ∧
    Parser true BMP.zero ⟨0, 0, 0⟩ (emptyImage.set 29 8) = .error .bitsPerPixel :=
  ⟨by decide, rfl, rfl⟩

/-- C6: on a buffer of at least 54 bytes that passes the magic, header-size and
planes checks, `parseBitsPerPixel` (and with it the constructor) fails with the
bits-per-pixel error exactly when byte 28 or byte 29 is nonzero, that is when
the 16-bit big-endian value of bytes 28..29 is nonzero. -/
theorem parseBitsPerPixel_error_iff (cs : Bool) (fresh : BMP) (dflt : Color) (d : List Byte)
    (hlen : 54 ≤ d.length) (hB : d[0] = 66) (hM : d[1] = 77)
    (hsize : beU32 d[14] d[15] d[16] d[17] = 40) (hplanes : d[26] = 0 ∧ d[27] = 1) :
    (Parser cs fresh dflt d = .error .bitsPerPixel ↔ (d[28] ≠ 0 ∨ d[29] ≠ 0)) ∧
    (∀ pic, parseBitsPerPixel cs pic d = .error .bitsPerPixel ↔ (d[28] ≠ 0 ∨ d[29] ≠ 0)) ∧
    ((d[28] ≠ 0 ∨ d[29] ≠ 0) ↔ d[28].val * 256 + d[29].val ≠ 0) := by
  have h50 : 50 ≤ d.length := by omega
  have h2 := (bytesToUnsignedInt_eq_beU32_small cs d[14] d[15] d[16] d[17] 40 (by decide)).2 hsize
  refine ⟨?_, ?_, ?_⟩
  · rw [Parser_eq cs fresh dflt d h50]
    by_cases h4 : d[28] = 0 ∧ d[29] = 0
    · simp only [hB, hM, and_self, not_true_eq_false, if_false, h2, ne_eq, hplanes, h4, or_self,
        iff_false]
      intro h
      split at h
      · cases h
      · rcases decodeBody_error cs dflt _ d _ h with h | h <;> cases h
    · simp only [hB, hM, and_self, not_true_eq_false, if_false, h2, ne_eq, hplanes, h4,
        not_false_eq_true, if_true, true_iff]
      exact not_and_or.1 h4
  · intro pic
    rw [parseBitsPerPixel_eq cs pic d h50]
    by_cases h4 : d[28] = 0 ∧ d[29] = 0
    · simp [h4]
    · simp only [h4, if_false, true_iff]
      exact not_and_or.1 h4
  · have e28 : d[28] = 0 ↔ d[28].val = 0 := byte_val_eq _ 0 (by decide)
    have e29 : d[29] = 0 ↔ d[29].val = 0 := byte_val_eq _ 0 (by decide)
    exact (or_congr (not_congr e28) (not_congr e29)).trans (by omega)

theorem parseBitsPerPixel_error_iff_witness :
    (54 ≤ (emptyImage.set 29 24).length ∧ (emptyImage.set 29 24)[0] = 66 ∧
      (emptyImage.set 29 24)[1] = 77 ∧
      beU32 (emptyImage.set 29 24)[14] (emptyImage.set 29 24)[15] (emptyImage.set 29 24)[16]
        (emptyImage.set 29 24)[17] = 40 ∧
      ((emptyImage.set 29 24)[26] = 0 ∧ (emptyImage.set 29 24)[27] = 1)) ∧
    parseBitsPerPixel true BMP.zero (emptyImage.set 29 24) = .error .bitsPerPixel :=
  ⟨⟨by decide, by decide, by decide, by decide, by decide⟩,
    ((parseBitsPerPixel_error_iff true BMP.zero ⟨0, 0, 0⟩ (emptyImage.set 29 24) (by decide)
      (by decide) (by decide) (by decide) (by decide)).2.1 BMP.zero).2 (by decide)⟩

/-- C7: on a buffer of at least 54 bytes that passes the magic, header-size,
planes and depth-marker checks, the constructor fails with the compression
error exactly when the big-endian value of bytes 30..33 is nonzero; a
descriptor it returns has compression field 0. -/
theorem Parser_compression_error_iff (cs : Bool) (fresh : BMP) (dflt : Color) (d : List Byte)
    (hlen : 54 ≤ d.length) (hB : d[0] = 66) (hM : d[1] = 77)
    (hsize : beU32 d[14] d[15] d[16] d[17] = 40) (hplanes : d[26] = 0 ∧ d[27] = 1)
    (hdepth : d[28] = 0 ∧ d[29] = 0) :
    (Parser cs fresh dflt d = .error .compression ↔ beU32 d[30] d[31] d[32] d[33] ≠ 0) ∧
    (∀ pic, Parser cs fresh dflt d = .ok pic → pic.m_compression = 0) := by
  have h50 : 50 ≤ d.length := by omega
  have h2 := (bytesToUnsignedInt_eq_beU32_small cs d[14] d[15] d[16] d[17] 40 (by decide)).2 hsize
  have hbe := bytesToUnsignedInt_eq_beU32_small cs d[30] d[31] d[32] d[33] 0 (by decide)
  constructor
  · have hne : beU32 d[30] d[31] d[32] d[33] ≠ 0 ↔
        bytesToUnsignedInt cs ![d[30], d[31], d[32], d[33]] ≠ 0 := not_congr hbe.symm
    rw [Parser_eq cs fresh dflt d h50, hne]
    by_cases h5 : bytesToUnsignedInt cs ![d[30], d[31], d[32], d[33]] = 0
    · simp only [hB, hM, and_self, not_true_eq_false, if_false, h2, ne_eq, hplanes, hdepth, h5,
        iff_false]
      intro h
      rcases decodeBody_error cs dflt _ d _ h with h | h <;> cases h
    · simp [hB, hM, h2, hplanes, hdepth, h5]
  · intro pic h
    obtain ⟨h50, -, -, -, -, h5, hb⟩ := Parser_ok cs fresh dflt d pic h
    rw [(decodeBody_ok cs dflt _ pic d hb).2.2.2.2.2.2.2.2.1]
    exact h5

theorem Parser_compression_error_iff_witness :
    (54 ≤ (emptyImage.set 33 1).length ∧ (emptyImage.set 33 1)[0] = 66 ∧
      (emptyImage.set 33 1)[1] = 77 ∧
      beU32 (emptyImage.set 33 1)[14] (emptyImage.set 33 1)[15] (emptyImage.set 33 1)[16]
        (emptyImage.set 33 1)[17] = 40 ∧
      ((emptyImage.set 33 1)[26] = 0 ∧ (emptyImage.set 33 1)[27] = 1) ∧
      ((emptyImage.set 33 1)[28] = 0 ∧ (emptyImage.set 33 1)[29] = 0)) ∧
    Parser true BMP.zero ⟨0, 0, 0⟩ (emptyImage.set 33 1) = .error .compression :=
  ⟨⟨by decide, by decide, by decide, by decide, by decide, by decide⟩,
    (Parser_compression_error_iff true BMP.zero ⟨0, 0, 0⟩ (emptyImage.set 33 1) (by decide)
      (by decide) (by decide) (by decide) (by decide) (by decide)).1.2 (by decide)⟩

/-! ## The palette invariant -/

/-- C10: when the constructor succeeds from a descriptor whose map is empty, the
palette of the result is non-empty exactly when `getBitsPerPixel` is 8; in
particular it is empty when `getBitsPerPixel` is 24. -/
theorem Parser_palette_nonempty_iff (cs : Bool) (fresh : BMP) (dflt : Color) (d : List Byte)
    (pic : BMP) (hfresh : fresh.m_colors = Palette.empty)
    (h : Parser cs fresh dflt d = .ok pic) :
    ((∃ K, (pic.m_colors K).isSome) ↔ pic.getBitsPerPixel cs = 8) ∧
    (pic.getBitsPerPixel cs = 24 → pic.m_colors = Palette.empty) := by
  obtain ⟨h50, -, -, -, -, -, hb⟩ := Parser_ok cs fresh dflt d pic h
  have hframe := decodeBody_ok cs dflt _ pic d hb
  have hbpp : pic.getBitsPerPixel cs = (headerFields cs fresh d h50).getBitsPerPixel cs := by
    unfold BMP.getBitsPerPixel
    rw [hframe.2.2.2.2.2.2.2.1]
  have hcol : (headerFields cs fresh d h50).m_colors = Palette.empty := hfresh
  have hyes := hframe.2.2.2.2.2.2.2.2.2.2.1
  have hno := hframe.2.2.2.2.2.2.2.2.2.2.2
  rw [← hbpp] at hyes hno
  rw [hcol] at hno
  refine ⟨⟨?_, hyes⟩, fun h24 => hno (by rw [h24]; decide)⟩
  rintro ⟨K, hK⟩
  by_contra h8
  rw [hno h8] at hK
  simp [Palette.empty] at hK

theorem Parser_palette_nonempty_iff_witness :
    (fresh8.m_colors = Palette.empty ∧
      Parser true fresh8 ⟨0, 0, 0⟩ paletteImage = .ok paletteImageDecoded) ∧
    ((∃ K, (paletteImageDecoded.m_colors K).isSome) ↔ paletteImageDecoded.getBitsPerPixel true = 8) :=
  ⟨⟨rfl, rfl⟩,
    (Parser_palette_nonempty_iff true fresh8 ⟨0, 0, 0⟩ paletteImage paletteImageDecoded rfl rfl).1⟩

/-! ## The palette loop -/

theorem Palette.insert_isSome (colors : Palette) (key K : Byte) (c : Color) :
    ((colors.insert key c) K).isSome ↔ (K = key ∨ (colors K).isSome) := by
  unfold Palette.insert
  by_cases h : K = key <;> simp [h]

theorem parseColorPalleteLoop_spec (d : List Byte) (n cur : Nat) (colors0 : Palette)
    (hcover : cur + 4 * n ≤ d.length) (hrange : cur + 4 * n ≤ 4294967296) :
    ∃ colors, parseColorPalleteLoop d n cur colors0 = .ok colors ∧
      (∀ K, (colors K).isSome ↔
        ((colors0 K).isSome ∨ ∃ k, k < n ∧ d[cur + 4 * k + 3]? = some K)) ∧
      (∀ K, (∀ k, k < n → d[cur + 4 * k + 3]? ≠ some K) → colors K = colors0 K) ∧
      (∀ K k r g b, k < n → d[cur + 4 * k + 3]? = some K →
        (∀ k2, k < k2 → k2 < n → d[cur + 4 * k2 + 3]? ≠ some K) →
        d[cur + 4 * k]? = some r → d[cur + 4 * k + 1]? = some g →
        d[cur + 4 * k + 2]? = some b → colors K = some ⟨r, g, b⟩) := by
  induction n generalizing cur colors0 with
  | zero =>
    refine ⟨colors0, rfl, fun K => ?_, fun _ _ => rfl, ?_⟩
    · constructor
      · exact Or.inl
      · rintro (h | ⟨k, hk, -⟩)
        · exact h
        · omega
    · intro K k r g b hk
      omega
  | succ n ih =>
    have e1 : (cur + 1) % 4294967296 = cur + 1 := Nat.mod_eq_of_lt (by omega)
    have e2 : (cur + 2) % 4294967296 = cur + 2 := Nat.mod_eq_of_lt (by omega)
    have e3 : (cur + 3) % 4294967296 = cur + 3 := Nat.mod_eq_of_lt (by omega)
    have hshift : ∀ k, k < n → (cur + 4) % 4294967296 + 4 * k = cur + 4 * (k + 1) := by
      intro k hk
      omega
    have g0 : d[cur]? = some d[cur] := List.getElem?_eq_getElem (by omega)
    have g1 : d[cur + 1]? = some d[cur + 1] := List.getElem?_eq_getElem (by omega)
    have g2 : d[cur + 2]? = some d[cur + 2] := List.getElem?_eq_getElem (by omega)
    have g3 : d[cur + 3]? = some d[cur + 3] := List.getElem?_eq_getElem (by omega)
    obtain ⟨colors, hc, hkeys, hframe, hlast⟩ :=
      ih ((cur + 4) % 4294967296)
        (colors0.insert d[cur + 3] ⟨d[cur], d[cur + 1], d[cur + 2]⟩) (by omega) (by omega)
    refine ⟨colors, ?_, fun K => ?_, fun K hK => ?_, fun K k r g b hk hkey hlater hr hg hb => ?_⟩
    · unfold parseColorPalleteLoop
      rw [e1, e2, e3, readAt_ok d cur (by omega), readAt_ok d (cur + 1) (by omega),
        readAt_ok d (cur + 2) (by omega), readAt_ok d (cur + 3) (by omega)]
      exact hc
    · rw [hkeys K, Palette.insert_isSome]
      constructor
      · rintro ((h | h) | ⟨k, hk, h⟩)
        · exact Or.inr ⟨0, by omega, by rw [h]; exact g3⟩
        · exact Or.inl h
        · refine Or.inr ⟨k + 1, by omega, ?_⟩
          rw [← hshift k hk]
          exact h
      · rintro (h | ⟨k, hk, h⟩)
        · exact Or.inl (Or.inr h)
        · cases k with
          | zero =>
            rw [Nat.mul_zero, Nat.add_zero, g3] at h
            exact Or.inl (Or.inl (Option.some.inj h).symm)
          | succ k =>
            refine Or.inr ⟨k, by omega, ?_⟩
            rw [hshift k (by omega)]
            exact h
    · rw [hframe K]
      · have h0 := hK 0 (by omega)
        rw [Nat.mul_zero, Nat.add_zero, g3] at h0
        unfold Palette.insert
        rw [if_neg]
        intro hk
        exact h0 (by rw [hk])
      · intro k hk
        rw [hshift k hk]
        exact hK (k + 1) (by omega)
    · cases k with
      | zero =>
        rw [Nat.mul_zero, Nat.add_zero] at hkey hr hg hb
        rw [g3] at hkey
        rw [g0] at hr
        rw [g1] at hg
        rw [g2] at hb
        rw [hframe K]
        · unfold Palette.insert
          rw [if_pos (Option.some.inj hkey).symm, Option.some.inj hr, Option.some.inj hg,
            Option.some.inj hb]
        · intro k2 hk2
          rw [hshift k2 hk2]
          exact hlater (k2 + 1) (by omega) (by omega)
      | succ k =>
        have hs := hshift k (by omega)
        refine hlast K k r g b (by omega) ?_ ?_ ?_ ?_ ?_
        · rw [hs]; exact hkey
        · intro k2 h1 h2
          rw [hshift k2 h2]
          exact hlater (k2 + 1) (by omega) (by omega)
        · rw [hs]; exact hr
        · rw [hs]; exact hg
        · rw [hs]; exact hb


/-- C9, amended: when `getBitsPerPixel` is 8, the buffer covers the offsets
54 .. 54 + 4 * color_count - 1 and these offsets are below `2^32`,
`parseColorPallete` stores a palette whose keys are exactly the bytes at
54 + 4k + 3 for k < color_count, and a key is mapped to the three bytes of the
last entry that carries it. -/
theorem parseColorPallete_palette (cs : Bool) (pic : BMP) (d : List Byte)
    (hbpp : pic.getBitsPerPixel cs = 8) (hcover : 54 + 4 * pic.getNumOfColors ≤ d.length)
    (hrange : 54 + 4 * pic.getNumOfColors ≤ 4294967296) :
    ∃ colors, parseColorPallete cs pic d = .ok { pic with m_colors := colors } ∧
      (∀ K, (colors K).isSome ↔ ∃ k, k < pic.getNumOfColors ∧ d[54 + 4 * k + 3]? = some K) ∧
      (∀ K k r g b, k < pic.getNumOfColors → d[54 + 4 * k + 3]? = some K →
        (∀ k2, k < k2 → k2 < pic.getNumOfColors → d[54 + 4 * k2 + 3]? ≠ some K) →
        d[54 + 4 * k]? = some r → d[54 + 4 * k + 1]? = some g →
        d[54 + 4 * k + 2]? = some b → colors K = some ⟨r, g, b⟩) := by
  obtain ⟨colors, hc, hkeys, -, hlast⟩ :=
    parseColorPalleteLoop_spec d pic.getNumOfColors 54 Palette.empty hcover hrange
  refine ⟨colors, ?_, fun K => ?_, hlast⟩
  · unfold parseColorPallete
    rw [if_pos hbpp, hc]
  · rw [hkeys K]
    simp [Palette.empty]

theorem parseColorPallete_palette_witness :
    (twoColors.getBitsPerPixel true = 8 ∧
      54 + 4 * twoColors.getNumOfColors ≤ twoColorsImage.length ∧
      54 + 4 * twoColors.getNumOfColors ≤ 4294967296) ∧
    ∃ colors, parseColorPallete true twoColors twoColorsImage =
        .ok { twoColors with m_colors := colors } ∧
      colors 7 = some ⟨4, 5, 6⟩ :=
  ⟨⟨by decide, by decide, by decide⟩,
    (parseColorPallete_palette true twoColors twoColorsImage (by decide) (by decide)
      (by decide)).imp fun colors h =>
        ⟨h.1, h.2.2 7 1 4 5 6 (by decide) (by decide)
          (fun k2 h1 h2 => absurd h2 (by
            have : twoColors.getNumOfColors = 2 := rfl
            omega))
          (by decide) (by decide) (by decide)⟩⟩

theorem wrapBuffer_length : wrapBuffer.length = 4294967350 := by
  unfold wrapBuffer
  rw [List.length_append, List.length_replicate, List.length_singleton]

theorem wrapBuffer_low (i : Nat) (h : i < 4294967296) : wrapBuffer[i]? = some 0 := by
  unfold wrapBuffer
  rw [List.getElem?_append_left (by rw [List.length_replicate]; omega),
    List.getElem?_replicate, if_pos (by omega)]

theorem wrapBuffer_last : wrapBuffer[54 + 4 * 1073741823 + 3]? = some 1 := by
  unfold wrapBuffer
  rw [List.getElem?_append_right (by rw [List.length_replicate]), List.length_replicate]
  rfl

theorem parseColorPalleteLoop_low (d : List Byte) (n cur : Nat) (colors0 : Palette)
    (hz : ∀ i, i < 4294967296 → d[i]? = some 0) (hcur : cur < 4294967296) :
    ∃ colors, parseColorPalleteLoop d n cur colors0 = .ok colors ∧
      ∀ K, K ≠ 0 → colors K = colors0 K := by
  induction n generalizing cur colors0 with
  | zero => exact ⟨colors0, rfl, fun _ _ => rfl⟩
  | succ n ih =>
    have r0 : readAt d cur = .ok 0 := by simp [readAt, hz cur hcur]
    have r1 : readAt d ((cur + 1) % 4294967296) = .ok 0 := by
      simp [readAt, hz _ (Nat.mod_lt _ (by decide))]
    have r2 : readAt d ((cur + 2) % 4294967296) = .ok 0 := by
      simp [readAt, hz _ (Nat.mod_lt _ (by decide))]
    have r3 : readAt d ((cur + 3) % 4294967296) = .ok 0 := by
      simp [readAt, hz _ (Nat.mod_lt _ (by decide))]
    obtain ⟨colors, hc, hk⟩ :=
      ih ((cur + 4) % 4294967296) (colors0.insert 0 ⟨0, 0, 0⟩) (Nat.mod_lt _ (by decide))
    refine ⟨colors, ?_, fun K hK => ?_⟩
    · unfold parseColorPalleteLoop
      rw [r0, r1, r2, r3]
      exact hc
    · rw [hk K hK]
      unfold Palette.insert
      rw [if_neg hK]

/-- C9 as stated fails once the offsets pass `2^32`: with `2^30` entries
declared and a buffer of `54 + 4 * 2^30` bytes that covers them, the key byte
of the last entry is 1, yet `parseColorPallete` succeeds with a palette that
has no key 1, because the `uint32_t` position wraps around. -/
theorem parseColorPallete_wrap_counterexample :
    wrapPalette.getBitsPerPixel true = 8 ∧
    54 + 4 * wrapPalette.getNumOfColors ≤ wrapBuffer.length ∧
    (1073741823 < wrapPalette.getNumOfColors ∧
      wrapBuffer[54 + 4 * 1073741823 + 3]? = some 1) ∧
    ∃ q, parseColorPallete true wrapPalette wrapBuffer = .ok q ∧ q.m_colors 1 = none := by
  refine ⟨by decide, ?_, ⟨by decide, wrapBuffer_last⟩, ?_⟩
  · rw [wrapBuffer_length]
    decide
  · obtain ⟨colors, hc, hk⟩ :=
      parseColorPalleteLoop_low wrapBuffer wrapPalette.getNumOfColors 54 Palette.empty
        wrapBuffer_low (by decide)
    refine ⟨{ wrapPalette with m_colors := colors }, ?_, ?_⟩
    · unfold parseColorPallete
      rw [if_pos (by decide), hc]
    · show colors 1 = none
      rw [hk 1 (by decide)]
      rfl


/-! ## The derived colour count -/

/-- C8, amended: on a buffer that reaches offset 49, when bytes 46..49 are all
zero and `getBitsPerPixel` lies in 0..31, `parseNumOfColors` sets the colour
count to `2 ^ getBitsPerPixel` (256 for depth 8, 16777216 for depth 24) and
changes nothing else; when `bytesToUnsignedInt` of bytes 46..49 is nonzero, the
colour count is that value. -/
theorem parseNumOfColors_derives_count (cs : Bool) (pic : BMP) (d : List Byte)
    (hlen : 50 ≤ d.length) :
    ((d[46] = 0 ∧ d[47] = 0 ∧ d[48] = 0 ∧ d[49] = 0) → 0 ≤ pic.getBitsPerPixel cs →
      pic.getBitsPerPixel cs < 32 →
      parseNumOfColors cs pic d =
        .ok { pic with m_numOfColors := 2 ^ (pic.getBitsPerPixel cs).toNat }) ∧
    ((d[46] = 0 ∧ d[47] = 0 ∧ d[48] = 0 ∧ d[49] = 0) → pic.getBitsPerPixel cs = 8 →
      parseNumOfColors cs pic d = .ok { pic with m_numOfColors := 256 }) ∧
    ((d[46] = 0 ∧ d[47] = 0 ∧ d[48] = 0 ∧ d[49] = 0) → pic.getBitsPerPixel cs = 24 →
      parseNumOfColors cs pic d = .ok { pic with m_numOfColors := 16777216 }) ∧
    (bytesToUnsignedInt cs ![d[46], d[47], d[48], d[49]] ≠ 0 →
      parseNumOfColors cs pic d =
        .ok { pic with m_numOfColors := bytesToUnsignedInt cs ![d[46], d[47], d[48], d[49]] }) := by
  have hzero : (d[46] = 0 ∧ d[47] = 0 ∧ d[48] = 0 ∧ d[49] = 0) →
      bytesToUnsignedInt cs ![d[46], d[47], d[48], d[49]] = 0 := by
    rintro ⟨h0, h1, h2, h3⟩
    refine (bytesToUnsignedInt_eq_small cs _ 0 (by decide)).2 ⟨?_, ?_, ?_, ?_⟩
    · exact (byte_val_eq d[46] 0 (by decide)).1 h0
    · exact (byte_val_eq d[47] 0 (by decide)).1 h1
    · exact (byte_val_eq d[48] 0 (by decide)).1 h2
    · exact (byte_val_eq d[49] 0 (by decide)).1 h3
  have hpow : (d[46] = 0 ∧ d[47] = 0 ∧ d[48] = 0 ∧ d[49] = 0) → 0 ≤ pic.getBitsPerPixel cs →
      pic.getBitsPerPixel cs < 32 →
      parseNumOfColors cs pic d =
        .ok { pic with m_numOfColors := 2 ^ (pic.getBitsPerPixel cs).toNat } := by
    intro hz h0 h32
    rw [parseNumOfColors_eq cs pic d hlen, if_pos (hzero hz)]
    unfold powToUInt32
    rw [if_neg (by omega), if_pos h32]
  refine ⟨hpow, fun hz h8 => ?_, fun hz h24 => ?_, fun hne => ?_⟩
  · have h := hpow hz (by omega) (by omega)
    rw [h8] at h
    exact h
  · have h := hpow hz (by omega) (by omega)
    rw [h24] at h
    exact h
  · rw [parseNumOfColors_eq cs pic d hlen, if_neg hne]

theorem parseNumOfColors_derives_count_witness :
    (50 ≤ emptyImage.length ∧
      (emptyImage[46] = 0 ∧ emptyImage[47] = 0 ∧ emptyImage[48] = 0 ∧ emptyImage[49] = 0) ∧
      fresh8.getBitsPerPixel true = 8) ∧
    parseNumOfColors true fresh8 emptyImage = .ok { fresh8 with m_numOfColors := 256 } :=
  ⟨⟨by decide, by decide, by decide⟩,
    (parseNumOfColors_derives_count true fresh8 emptyImage (by decide)).2.1 (by decide)
      (by decide)⟩

/-- C8 as stated fails outside the depths 0..31, with bytes 46..49 all zero:
at depth 32 no colour count is set at all, since `2^32` has no `uint32_t`
value, and at the depth byte 255 read as the signed `char` -1 the colour count
is 0, not `2^(-1)`. -/
theorem parseNumOfColors_power_counterexample :
    (emptyImage[46] = 0 ∧ emptyImage[47] = 0 ∧ emptyImage[48] = 0 ∧ emptyImage[49] = 0) ∧
    ¬ (∃ q, parseNumOfColors true depth32 emptyImage = .ok q ∧
      (q.m_numOfColors : ℚ) = (2 : ℚ) ^ (depth32.getBitsPerPixel true)) ∧
    ¬ (∃ q, parseNumOfColors true depth255 emptyImage = .ok q ∧
      (q.m_numOfColors : ℚ) = (2 : ℚ) ^ (depth255.getBitsPerPixel true)) := by
  refine ⟨by decide, ?_, ?_⟩
  · rintro ⟨q, hq, -⟩
    have h : parseNumOfColors true depth32 emptyImage = .error .notRepresentable := rfl
    rw [h] at hq
    cases hq
  · rintro ⟨q, hq, hpow⟩
    have h : parseNumOfColors true depth255 emptyImage =
        .ok { depth255 with m_numOfColors := 0 } := rfl
    rw [h] at hq
    cases hq
    have hb : depth255.getBitsPerPixel true = -1 := by decide
    rw [hb] at hpow
    norm_num at hpow

/-! ## The pixel loops -/

theorem readAt_byteAt (d : List Byte) (k : Nat) (h : k < d.length) :
    readAt d k = .ok (byteAt d k) := by
  simp [readAt, byteAt, List.getElem?_eq_getElem h]

theorem row24_spec (cs : Bool) (d : List Byte) (i cols j v : Nat) (p : Planes)
    (hcover : ∀ t c, t < cols → c < 3 → (v + 3 * t + c) % 4294967296 < d.length) :
    ∃ q, row24 cs d i cols j (v % 4294967296) p = .ok ((v + 3 * cols) % 4294967296, q) ∧
      (∀ a b, q.red.cells a b =
        if a = i ∧ j ≤ b ∧ b < j + cols then
          charToInt cs (byteAt d ((v + 3 * (b - j)) % 4294967296))
        else p.red.cells a b) ∧
      (∀ a b, q.green.cells a b =
        if a = i ∧ j ≤ b ∧ b < j + cols then
          charToInt cs (byteAt d ((v + 3 * (b - j) + 1) % 4294967296))
        else p.green.cells a b) ∧
      (∀ a b, q.blue.cells a b =
        if a = i ∧ j ≤ b ∧ b < j + cols then
          charToInt cs (byteAt d ((v + 3 * (b - j) + 2) % 4294967296))
        else p.blue.cells a b) := by
  induction cols generalizing j v p with
  | zero =>
    refine ⟨p, rfl, fun a b => ?_, fun a b => ?_, fun a b => ?_⟩ <;>
      exact (if_neg (by omega)).symm
  | succ n ih =>
    have h0 := hcover 0 0 (by omega) (by omega)
    have h1 := hcover 0 1 (by omega) (by omega)
    have h2 := hcover 0 2 (by omega) (by omega)
    have e1 : (v % 4294967296 + 1) % 4294967296 = (v + 1) % 4294967296 := by omega
    have e2 : (v % 4294967296 + 2) % 4294967296 = (v + 2) % 4294967296 := by omega
    have e3 : (v % 4294967296 + 3) % 4294967296 = (v + 3) % 4294967296 := by omega
    have e4 : (v + 3 + 3 * n) % 4294967296 = (v + 3 * (n + 1)) % 4294967296 := by
      congr 1; omega
    obtain ⟨q, hq, hr, hg, hb⟩ := ih (j + 1) (v + 3)
      ⟨p.red.set i j (charToInt cs (byteAt d (v % 4294967296))),
        p.green.set i j (charToInt cs (byteAt d ((v + 1) % 4294967296))),
        p.blue.set i j (charToInt cs (byteAt d ((v + 2) % 4294967296)))⟩
      (fun t c ht hc => by
        have := hcover (t + 1) c (by omega) hc
        have e : v + 3 + 3 * t + c = v + 3 * (t + 1) + c := by omega
        rw [e]; exact this)
    refine ⟨q, ?_, fun a b => ?_, fun a b => ?_, fun a b => ?_⟩
    · unfold row24
      rw [e1, e2, e3, readAt_byteAt d _ (by simpa using h0),
        readAt_byteAt d _ (by simpa using h1), readAt_byteAt d _ (by simpa using h2)]
      simp only
      rw [hq, e4]
    · rw [hr a b]
      simp only [Mat.set]
      by_cases hb1 : a = i ∧ j + 1 ≤ b ∧ b < j + 1 + n
      · have e : v + 3 + 3 * (b - (j + 1)) = v + 3 * (b - j) := by omega
        rw [if_pos hb1, if_pos (by omega), e]
      · rw [if_neg hb1]
        by_cases hb0 : a = i ∧ b = j
        · have e : v + 3 * (b - j) = v := by omega
          rw [if_pos hb0, if_pos (by omega), e]
        · rw [if_neg hb0, if_neg (by omega)]
    · rw [hg a b]
      simp only [Mat.set]
      by_cases hb1 : a = i ∧ j + 1 ≤ b ∧ b < j + 1 + n
      · have e : v + 3 + 3 * (b - (j + 1)) + 1 = v + 3 * (b - j) + 1 := by omega
        rw [if_pos hb1, if_pos (by omega), e]
      · rw [if_neg hb1]
        by_cases hb0 : a = i ∧ b = j
        · have e : v + 3 * (b - j) + 1 = v + 1 := by omega
          rw [if_pos hb0, if_pos (by omega), e]
        · rw [if_neg hb0, if_neg (by omega)]
    · rw [hb a b]
      simp only [Mat.set]
      by_cases hb1 : a = i ∧ j + 1 ≤ b ∧ b < j + 1 + n
      · have e : v + 3 + 3 * (b - (j + 1)) + 2 = v + 3 * (b - j) + 2 := by omega
        rw [if_pos hb1, if_pos (by omega), e]
      · rw [if_neg hb1]
        by_cases hb0 : a = i ∧ b = j
        · have e : v + 3 * (b - j) + 2 = v + 2 := by omega
          rw [if_pos hb0, if_pos (by omega), e]
        · rw [if_neg hb0, if_neg (by omega)]

theorem rows24_spec (cs : Bool) (d : List Byte) (w pad R : Nat) (hR : R = 3 * w + pad)
    (rows i v : Nat) (p : Planes)
    (hcover : ∀ r t c, r < rows → t < w → c < 3 →
      (v + r * R + 3 * t + c) % 4294967296 < d.length) :
    ∃ q, rows24 cs d w pad rows i (v % 4294967296) p =
        .ok ((v + rows * R) % 4294967296, q) ∧
      (∀ a b, q.red.cells a b =
        if i ≤ a ∧ a < i + rows ∧ b < w then
          charToInt cs (byteAt d ((v + (a - i) * R + 3 * b) % 4294967296))
        else p.red.cells a b) ∧
      (∀ a b, q.green.cells a b =
        if i ≤ a ∧ a < i + rows ∧ b < w then
          charToInt cs (byteAt d ((v + (a - i) * R + 3 * b + 1) % 4294967296))
        else p.green.cells a b) ∧
      (∀ a b, q.blue.cells a b =
        if i ≤ a ∧ a < i + rows ∧ b < w then
          charToInt cs (byteAt d ((v + (a - i) * R + 3 * b + 2) % 4294967296))
        else p.blue.cells a b) := by
  induction rows generalizing i v p with
  | zero =>
    refine ⟨p, ?_, fun a b => ?_, fun a b => ?_, fun a b => ?_⟩
    · rw [Nat.zero_mul, Nat.add_zero]; rfl
    all_goals exact (if_neg (by omega)).symm
  | succ n ih =>
    obtain ⟨q1, hq1, hr1, hg1, hb1⟩ := row24_spec cs d i w 0 v p (fun t c ht hc => by
      have := hcover 0 t c (by omega) ht hc
      rw [Nat.zero_mul, Nat.add_zero] at this
      exact this)
    have eidx : ((v + 3 * w) % 4294967296 + pad) % 4294967296 = (v + R) % 4294967296 := by
      rw [hR]; omega
    have estep : ∀ r, v + R + r * R = v + (r + 1) * R := by
      intro r; rw [Nat.add_mul, Nat.one_mul]; omega
    obtain ⟨q, hq, hr, hg, hb⟩ := ih (i + 1) (v + R) q1 (fun r t c hr ht hc => by
      have := hcover (r + 1) t c (by omega) ht hc
      rw [estep r]; exact this)
    refine ⟨q, ?_, fun a b => ?_, fun a b => ?_, fun a b => ?_⟩
    · unfold rows24
      rw [hq1]
      simp only
      rw [eidx, hq, estep n]
    · rw [hr a b, hr1 a b]
      by_cases h1 : i + 1 ≤ a ∧ a < i + 1 + n ∧ b < w
      · have e : a - i = (a - (i + 1)) + 1 := by omega
        rw [if_pos h1, if_pos (by omega), e, ← estep]
      · rw [if_neg h1]
        by_cases h0 : a = i ∧ 0 ≤ b ∧ b < 0 + w
        · have e : a - i = 0 := by omega
          rw [if_pos h0, if_pos (by omega), e]
          simp only [Nat.zero_mul, Nat.add_zero, Nat.sub_zero]
        · rw [if_neg h0, if_neg (by omega)]
    · rw [hg a b, hg1 a b]
      by_cases h1 : i + 1 ≤ a ∧ a < i + 1 + n ∧ b < w
      · have e : a - i = (a - (i + 1)) + 1 := by omega
        rw [if_pos h1, if_pos (by omega), e, ← estep]
      · rw [if_neg h1]
        by_cases h0 : a = i ∧ 0 ≤ b ∧ b < 0 + w
        · have e : a - i = 0 := by omega
          rw [if_pos h0, if_pos (by omega), e]
          simp only [Nat.zero_mul, Nat.add_zero, Nat.sub_zero]
        · rw [if_neg h0, if_neg (by omega)]
    · rw [hb a b, hb1 a b]
      by_cases h1 : i + 1 ≤ a ∧ a < i + 1 + n ∧ b < w
      · have e : a - i = (a - (i + 1)) + 1 := by omega
        rw [if_pos h1, if_pos (by omega), e, ← estep]
      · rw [if_neg h1]
        by_cases h0 : a = i ∧ 0 ≤ b ∧ b < 0 + w
        · have e : a - i = 0 := by omega
          rw [if_pos h0, if_pos (by omega), e]
          simp only [Nat.zero_mul, Nat.add_zero, Nat.sub_zero]
        · rw [if_neg h0, if_neg (by omega)]

theorem rowIndexed_spec (cs : Bool) (dflt : Color) (pal : Palette) (d : List Byte)
    (i cols j v : Nat) (p : Planes)
    (hcover : ∀ t, t < cols → (v + t) % 4294967296 < d.length) :
    ∃ q, rowIndexed cs dflt pal d i cols j (v % 4294967296) p =
        .ok ((v + cols) % 4294967296, q) ∧
      (∀ a b, q.red.cells a b =
        if a = i ∧ j ≤ b ∧ b < j + cols then
          ((pal (byteAt d ((v + (b - j)) % 4294967296))).getD dflt).getRed cs
        else p.red.cells a b) ∧
      (∀ a b, q.green.cells a b =
        if a = i ∧ j ≤ b ∧ b < j + cols then
          ((pal (byteAt d ((v + (b - j)) % 4294967296))).getD dflt).getGreen cs
        else p.green.cells a b) ∧
      (∀ a b, q.blue.cells a b =
        if a = i ∧ j ≤ b ∧ b < j + cols then
          ((pal (byteAt d ((v + (b - j)) % 4294967296))).getD dflt).getBlue cs
        else p.blue.cells a b) := by
  induction cols generalizing j v p with
  | zero =>
    refine ⟨p, rfl, fun a b => ?_, fun a b => ?_, fun a b => ?_⟩ <;>
      exact (if_neg (by omega)).symm
  | succ n ih =>
    have h0 := hcover 0 (by omega)
    have e1 : (v % 4294967296 + 1) % 4294967296 = (v + 1) % 4294967296 := by omega
    have e4 : (v + 1 + n) % 4294967296 = (v + (n + 1)) % 4294967296 := by
      congr 1; omega
    obtain ⟨q, hq, hr, hg, hb⟩ := ih (j + 1) (v + 1)
      ⟨p.red.set i j (((pal (byteAt d (v % 4294967296))).getD dflt).getRed cs),
        p.green.set i j (((pal (byteAt d (v % 4294967296))).getD dflt).getGreen cs),
        p.blue.set i j (((pal (byteAt d (v % 4294967296))).getD dflt).getBlue cs)⟩
      (fun t ht => by
        have := hcover (t + 1) (by omega)
        have e : v + 1 + t = v + (t + 1) := by omega
        rw [e]; exact this)
    refine ⟨q, ?_, fun a b => ?_, fun a b => ?_, fun a b => ?_⟩
    · unfold rowIndexed
      rw [readAt_byteAt d _ (by simpa using h0)]
      simp only
      rw [e1, hq, e4]
    · rw [hr a b]
      simp only [Mat.set]
      by_cases hb1 : a = i ∧ j + 1 ≤ b ∧ b < j + 1 + n
      · have e : v + 1 + (b - (j + 1)) = v + (b - j) := by omega
        rw [if_pos hb1, if_pos (by omega), e]
      · rw [if_neg hb1]
        by_cases hb0 : a = i ∧ b = j
        · have e : v + (b - j) = v := by omega
          rw [if_pos hb0, if_pos (by omega), e]
        · rw [if_neg hb0, if_neg (by omega)]
    · rw [hg a b]
      simp only [Mat.set]
      by_cases hb1 : a = i ∧ j + 1 ≤ b ∧ b < j + 1 + n
      · have e : v + 1 + (b - (j + 1)) = v + (b - j) := by omega
        rw [if_pos hb1, if_pos (by omega), e]
      · rw [if_neg hb1]
        by_cases hb0 : a = i ∧ b = j
        · have e : v + (b - j) = v := by omega
          rw [if_pos hb0, if_pos (by omega), e]
        · rw [if_neg hb0, if_neg (by omega)]
    · rw [hb a b]
      simp only [Mat.set]
      by_cases hb1 : a = i ∧ j + 1 ≤ b ∧ b < j + 1 + n
      · have e : v + 1 + (b - (j + 1)) = v + (b - j) := by omega
        rw [if_pos hb1, if_pos (by omega), e]
      · rw [if_neg hb1]
        by_cases hb0 : a = i ∧ b = j
        · have e : v + (b - j) = v := by omega
          rw [if_pos hb0, if_pos (by omega), e]
        · rw [if_neg hb0, if_neg (by omega)]

theorem rowsIndexed_spec (cs : Bool) (dflt : Color) (pal : Palette) (d : List Byte)
    (w pad R : Nat) (hR : R = w + pad) (rows i v : Nat) (p : Planes)
    (hcover : ∀ r t, r < rows → t < w → (v + r * R + t) % 4294967296 < d.length) :
    ∃ q, rowsIndexed cs dflt pal d w pad rows i (v % 4294967296) p =
        .ok ((v + rows * R) % 4294967296, q) ∧
      (∀ a b, q.red.cells a b =
        if i ≤ a ∧ a < i + rows ∧ b < w then
          ((pal (byteAt d ((v + (a - i) * R + b) % 4294967296))).getD dflt).getRed cs
        else p.red.cells a b) ∧
      (∀ a b, q.green.cells a b =
        if i ≤ a ∧ a < i + rows ∧ b < w then
          ((pal (byteAt d ((v + (a - i) * R + b) % 4294967296))).getD dflt).getGreen cs
        else p.green.cells a b) ∧
      (∀ a b, q.blue.cells a b =
        if i ≤ a ∧ a < i + rows ∧ b < w then
          ((pal (byteAt d ((v + (a - i) * R + b) % 4294967296))).getD dflt).getBlue cs
        else p.blue.cells a b) := by
  induction rows generalizing i v p with
  | zero =>
    refine ⟨p, ?_, fun a b => ?_, fun a b => ?_, fun a b => ?_⟩
    · rw [Nat.zero_mul, Nat.add_zero]; rfl
    all_goals exact (if_neg (by omega)).symm
  | succ n ih =>
    obtain ⟨q1, hq1, hr1, hg1, hb1⟩ := rowIndexed_spec cs dflt pal d i w 0 v p (fun t ht => by
      have := hcover 0 t (by omega) ht
      rw [Nat.zero_mul, Nat.add_zero] at this
      exact this)
    have eidx : ((v + w) % 4294967296 + pad) % 4294967296 = (v + R) % 4294967296 := by
      rw [hR]; omega
    have estep : ∀ r, v + R + r * R = v + (r + 1) * R := by
      intro r; rw [Nat.add_mul, Nat.one_mul]; omega
    obtain ⟨q, hq, hr, hg, hb⟩ := ih (i + 1) (v + R) q1 (fun r t hr ht => by
      have := hcover (r + 1) t (by omega) ht
      rw [estep r]; exact this)
    refine ⟨q, ?_, fun a b => ?_, fun a b => ?_, fun a b => ?_⟩
    · unfold rowsIndexed
      rw [hq1]
      simp only
      rw [eidx, hq, estep n]
    · rw [hr a b, hr1 a b]
      by_cases h1 : i + 1 ≤ a ∧ a < i + 1 + n ∧ b < w
      · have e : a - i = (a - (i + 1)) + 1 := by omega
        rw [if_pos h1, if_pos (by omega), e, ← estep]
      · rw [if_neg h1]
        by_cases h0 : a = i ∧ 0 ≤ b ∧ b < 0 + w
        · have e : a - i = 0 := by omega
          rw [if_pos h0, if_pos (by omega), e]
          simp only [Nat.zero_mul, Nat.add_zero, Nat.sub_zero]
        · rw [if_neg h0, if_neg (by omega)]
    · rw [hg a b, hg1 a b]
      by_cases h1 : i + 1 ≤ a ∧ a < i + 1 + n ∧ b < w
      · have e : a - i = (a - (i + 1)) + 1 := by omega
        rw [if_pos h1, if_pos (by omega), e, ← estep]
      · rw [if_neg h1]
        by_cases h0 : a = i ∧ 0 ≤ b ∧ b < 0 + w
        · have e : a - i = 0 := by omega
          rw [if_pos h0, if_pos (by omega), e]
          simp only [Nat.zero_mul, Nat.add_zero, Nat.sub_zero]
        · rw [if_neg h0, if_neg (by omega)]
    · rw [hb a b, hb1 a b]
      by_cases h1 : i + 1 ≤ a ∧ a < i + 1 + n ∧ b < w
      · have e : a - i = (a - (i + 1)) + 1 := by omega
        rw [if_pos h1, if_pos (by omega), e, ← estep]
      · rw [if_neg h1]
        by_cases h0 : a = i ∧ 0 ≤ b ∧ b < 0 + w
        · have e : a - i = 0 := by omega
          rw [if_pos h0, if_pos (by omega), e]
          simp only [Nat.zero_mul, Nat.add_zero, Nat.sub_zero]
        · rw [if_neg h0, if_neg (by omega)]

theorem parseBitmapArray_24_spec (cs : Bool) (dflt : Color) (pic : BMP) (d : List Byte)
    (hbpp : pic.getBitsPerPixel cs = 24) (ho : pic.getPixelArrayAddress < 4294967296)
    (hcover : ∀ r t c, r < pic.getBitMapHeight → t < pic.getBitMapWidth → c < 3 →
      (pic.getPixelArrayAddress + r * (3 * pic.getBitMapWidth + pic.getBitMapWidth % 4)
        + 3 * t + c) % 4294967296 < d.length) :
    ∃ q, parseBitmapArray cs dflt pic d = .ok q ∧
      ∀ a b, a < pic.getBitMapHeight → b < pic.getBitMapWidth →
        q.m_red.cells a b = charToInt cs (byteAt d ((pic.getPixelArrayAddress
          + a * (3 * pic.getBitMapWidth + pic.getBitMapWidth % 4) + 3 * b) % 4294967296)) ∧
        q.m_green.cells a b = charToInt cs (byteAt d ((pic.getPixelArrayAddress
          + a * (3 * pic.getBitMapWidth + pic.getBitMapWidth % 4) + 3 * b + 1) % 4294967296)) ∧
        q.m_blue.cells a b = charToInt cs (byteAt d ((pic.getPixelArrayAddress
          + a * (3 * pic.getBitMapWidth + pic.getBitMapWidth % 4) + 3 * b + 2) % 4294967296)) := by
  obtain ⟨q, hq, hr, hg, hb⟩ := rows24_spec cs d pic.getBitMapWidth (pic.getBitMapWidth % 4)
    (3 * pic.getBitMapWidth + pic.getBitMapWidth % 4) rfl pic.getBitMapHeight 0
    pic.getPixelArrayAddress
    ⟨Mat.create pic.getBitMapHeight pic.getBitMapWidth,
      Mat.create pic.getBitMapHeight pic.getBitMapWidth,
      Mat.create pic.getBitMapHeight pic.getBitMapWidth⟩ hcover
  rw [Nat.mod_eq_of_lt ho] at hq
  refine ⟨{ pic with m_red := q.red, m_green := q.green, m_blue := q.blue }, ?_, ?_⟩
  · unfold parseBitmapArray
    simp only [if_pos hbpp, hq]
  · intro a b ha hb2
    refine ⟨?_, ?_, ?_⟩
    · show q.red.cells a b = _
      rw [hr a b, if_pos (by omega), Nat.sub_zero]
    · show q.green.cells a b = _
      rw [hg a b, if_pos (by omega), Nat.sub_zero]
    · show q.blue.cells a b = _
      rw [hb a b, if_pos (by omega), Nat.sub_zero]

theorem parseBitmapArray_indexed_spec (cs : Bool) (dflt : Color) (pic : BMP) (d : List Byte)
    (hbpp : pic.getBitsPerPixel cs ≠ 24) (ho : pic.getPixelArrayAddress < 4294967296)
    (hcover : ∀ r t, r < pic.getBitMapHeight → t < pic.getBitMapWidth →
      (pic.getPixelArrayAddress + r * (pic.getBitMapWidth + (4 - pic.getBitMapWidth % 4))
        + t) % 4294967296 < d.length) :
    ∃ q, parseBitmapArray cs dflt pic d = .ok q ∧
      ∀ a b, a < pic.getBitMapHeight → b < pic.getBitMapWidth →
        q.m_red.cells a b = ((pic.m_colors (byteAt d ((pic.getPixelArrayAddress
          + a * (pic.getBitMapWidth + (4 - pic.getBitMapWidth % 4)) + b) % 4294967296))).getD
            dflt).getRed cs ∧
        q.m_green.cells a b = ((pic.m_colors (byteAt d ((pic.getPixelArrayAddress
          + a * (pic.getBitMapWidth + (4 - pic.getBitMapWidth % 4)) + b) % 4294967296))).getD
            dflt).getGreen cs ∧
        q.m_blue.cells a b = ((pic.m_colors (byteAt d ((pic.getPixelArrayAddress
          + a * (pic.getBitMapWidth + (4 - pic.getBitMapWidth % 4)) + b) % 4294967296))).getD
            dflt).getBlue cs := by
  obtain ⟨q, hq, hr, hg, hb⟩ := rowsIndexed_spec cs dflt pic.getColors d pic.getBitMapWidth
    (4 - pic.getBitMapWidth % 4) (pic.getBitMapWidth + (4 - pic.getBitMapWidth % 4)) rfl
    pic.getBitMapHeight 0 pic.getPixelArrayAddress
    ⟨Mat.create pic.getBitMapHeight pic.getBitMapWidth,
      Mat.create pic.getBitMapHeight pic.getBitMapWidth,
      Mat.create pic.getBitMapHeight pic.getBitMapWidth⟩ hcover
  rw [Nat.mod_eq_of_lt ho] at hq
  refine ⟨{ pic with m_red := q.red, m_green := q.green, m_blue := q.blue }, ?_, ?_⟩
  · unfold parseBitmapArray
    simp only [if_neg hbpp, hq]
  · intro a b ha hb2
    refine ⟨?_, ?_, ?_⟩
    · show q.red.cells a b = _
      rw [hr a b, if_pos (by omega), Nat.sub_zero]; rfl
    · show q.green.cells a b = _
      rw [hg a b, if_pos (by omega), Nat.sub_zero]; rfl
    · show q.blue.cells a b = _
      rw [hb a b, if_pos (by omega), Nat.sub_zero]; rfl

theorem byteAt_eq (d : List Byte) (k : Nat) (c : Byte) (h : d[k]? = some c) : byteAt d k = c := by
  simp [byteAt, h]

theorem toUInt32_natCast (n : Nat) (h : n < 4294967296) : toUInt32 (n : Int) = n := by
  unfold toUInt32; omega

/-! ## Layout of the 24-bit pixel array -/

theorem parseBitmapArray_24_nowrap (cs : Bool) (dflt : Color) (pic : BMP) (d : List Byte)
    (w h : Nat) (hbpp : pic.getBitsPerPixel cs = 24)
    (hw : pic.m_bitmapWidth = (w : Int)) (hh : pic.m_bitmapHeight = (h : Int))
    (hw31 : w < 2147483648) (hh31 : h < 2147483648)
    (ho : pic.getPixelArrayAddress < 4294967296)
    (hcover : ∀ i j c, i < h → j < w → c < 3 →
      pic.getPixelArrayAddress + i * (3 * w + w % 4) + 3 * j + c < d.length)
    (hrange : ∀ i j c, i < h → j < w → c < 3 →
      pic.getPixelArrayAddress + i * (3 * w + w % 4) + 3 * j + c < 4294967296) :
    ∃ q, parseBitmapArray cs dflt pic d = .ok q ∧
      ∀ i j r g b, i < h → j < w →
        d[pic.getPixelArrayAddress + i * (3 * w + w % 4) + 3 * j]? = some r →
        d[pic.getPixelArrayAddress + i * (3 * w + w % 4) + 3 * j + 1]? = some g →
        d[pic.getPixelArrayAddress + i * (3 * w + w % 4) + 3 * j + 2]? = some b →
        q.m_red.cells i j = charToInt cs r ∧ q.m_green.cells i j = charToInt cs g ∧
          q.m_blue.cells i j = charToInt cs b := by
  have hW : pic.getBitMapWidth = w := by
    unfold BMP.getBitMapWidth; rw [hw]; exact toUInt32_natCast w (by omega)
  have hH : pic.getBitMapHeight = h := by
    unfold BMP.getBitMapHeight; rw [hh]; exact toUInt32_natCast h (by omega)
  obtain ⟨q, hq, hcells⟩ := parseBitmapArray_24_spec cs dflt pic d hbpp ho (by
    rw [hW, hH]
    intro r t c hr ht hc
    rw [Nat.mod_eq_of_lt (hrange r t c hr ht hc)]
    exact hcover r t c hr ht hc)
  rw [hW, hH] at hcells
  refine ⟨q, hq, fun i j r g b hi hj h0 h1 h2 => ?_⟩
  obtain ⟨c0, c1, c2⟩ := hcells i j hi hj
  have r0 := hrange i j 0 hi hj (by omega)
  rw [Nat.add_zero] at r0
  rw [Nat.mod_eq_of_lt r0, byteAt_eq d _ r h0] at c0
  rw [Nat.mod_eq_of_lt (hrange i j 1 hi hj (by omega)), byteAt_eq d _ g h1] at c1
  rw [Nat.mod_eq_of_lt (hrange i j 2 hi hj (by omega)), byteAt_eq d _ b h2] at c2
  exact ⟨c0, c1, c2⟩

/-- C11, amended: when `getBitsPerPixel` is 24, width `w` and height `h` are
non-negative, and every offset `o + i * (3 * w + w % 4) + 3 * j + c` (`i < h`,
`j < w`, `c < 3`) lies inside the buffer and below `2^32`, `parseBitmapArray`
succeeds and the red, green and blue cells of row `i`, column `j` hold the
`char` read at that offset for `c = 0, 1, 2`: three bytes per pixel in buffer
order and `w % 4` bytes skipped after each row. -/
theorem parseBitmapArray_24bit_layout (cs : Bool) (dflt : Color) (pic : BMP) (d : List Byte)
    (w h : Nat) (hbpp : pic.getBitsPerPixel cs = 24)
    (hw : pic.m_bitmapWidth = (w : Int)) (hh : pic.m_bitmapHeight = (h : Int))
    (hw31 : w < 2147483648) (hh31 : h < 2147483648)
    (ho : pic.getPixelArrayAddress < 4294967296)
    (hcover : ∀ i j c, i < h → j < w → c < 3 →
      pic.getPixelArrayAddress + i * (3 * w + w % 4) + 3 * j + c < d.length)
    (hrange : ∀ i j c, i < h → j < w → c < 3 →
      pic.getPixelArrayAddress + i * (3 * w + w % 4) + 3 * j + c < 4294967296) :
    ∃ q, parseBitmapArray cs dflt pic d = .ok q ∧
      ∀ i j r g b, i < h → j < w →
        d[pic.getPixelArrayAddress + i * (3 * w + w % 4) + 3 * j]? = some r →
        d[pic.getPixelArrayAddress + i * (3 * w + w % 4) + 3 * j + 1]? = some g →
        d[pic.getPixelArrayAddress + i * (3 * w + w % 4) + 3 * j + 2]? = some b →
        q.m_red.cells i j = charToInt cs r ∧ q.m_green.cells i j = charToInt cs g ∧
          q.m_blue.cells i j = charToInt cs b :=
  parseBitmapArray_24_nowrap cs dflt pic d w h hbpp hw hh hw31 hh31 ho hcover hrange

theorem parseBitmapArray_24bit_layout_witness :
    (sample24State.getBitsPerPixel true = 24 ∧ sample24State.m_bitmapWidth = ((2 : Nat) : Int) ∧
      sample24State.m_bitmapHeight = ((2 : Nat) : Int) ∧
      sample24State.getPixelArrayAddress = 54 ∧ sample24.length = 70) ∧
    ∃ q, parseBitmapArray true ⟨0, 0, 0⟩ sample24State sample24 = .ok q ∧
      q.m_red.cells 1 1 = charToInt true 10 ∧ q.m_green.cells 1 1 = charToInt true 11 ∧
      q.m_blue.cells 1 1 = charToInt true 12 :=
  ⟨⟨by decide, rfl, rfl, rfl, rfl⟩,
    (parseBitmapArray_24bit_layout true ⟨0, 0, 0⟩ sample24State sample24 2 2 (by decide) rfl rfl
      (by decide) (by decide) (by decide)
      (fun i j c hi hj hc => by
        have h1 : sample24State.getPixelArrayAddress = 54 := rfl
        have h2 : sample24.length = 70 := rfl
        omega)
      (fun i j c hi hj hc => by
        have h1 : sample24State.getPixelArrayAddress = 54 := rfl
        omega)).imp fun q hq =>
        ⟨hq.1, hq.2 1 1 10 11 12 (by decide) (by decide) (by decide) (by decide) (by decide)⟩⟩

theorem wrapPixels_length : wrapPixels.length = 4294967299 := by
  unfold wrapPixels
  rw [List.length_append, List.length_replicate]
  rfl

theorem wrapPixels_low (i : Nat) (h : i < 4294967296) : byteAt wrapPixels i = 0 := by
  unfold byteAt wrapPixels
  rw [List.getElem?_append_left (by rw [List.length_replicate]; omega),
    List.getElem?_replicate, if_pos (by omega)]
  rfl

theorem wrapPixels_high : wrapPixels[4294967295 + 1]? = some 1 := by
  unfold wrapPixels
  rw [List.getElem?_append_right (by rw [List.length_replicate]), List.length_replicate]
  rfl

/-- C11 as stated fails once an offset passes `2^32`: for one 24-bit pixel at
pixel array offset `2^32 - 1`, in a buffer of `2^32 + 3` bytes that covers the
three offsets, the byte at offset `o + 1` is 1, yet the green cell is 0, the
byte at offset 0, because the `uint32_t` read position wraps around. -/
theorem parseBitmapArray_24bit_wrap_counterexample :
    wrap24.getBitsPerPixel true = 24 ∧
    (∀ c, c < 3 → wrap24.getPixelArrayAddress + c < wrapPixels.length) ∧
    wrapPixels[wrap24.getPixelArrayAddress + 1]? = some 1 ∧
    ∃ q, parseBitmapArray true ⟨0, 0, 0⟩ wrap24 wrapPixels = .ok q ∧
      q.m_green.cells 0 0 = 0 ∧ (0 : Int) ≠ charToInt true 1 := by
  have hW : wrap24.getBitMapWidth = 1 := rfl
  have hH : wrap24.getBitMapHeight = 1 := rfl
  have hO : wrap24.getPixelArrayAddress = 4294967295 := rfl
  refine ⟨by decide, fun c hc => ?_, wrapPixels_high, ?_⟩
  · rw [wrapPixels_length, hO]; omega
  · obtain ⟨q, hq, hcells⟩ := parseBitmapArray_24_spec true ⟨0, 0, 0⟩ wrap24 wrapPixels
      (by decide) (by decide) (fun r t c _ _ _ => by
        rw [wrapPixels_length]
        exact Nat.lt_of_lt_of_le (Nat.mod_lt _ (by decide)) (by decide))
    refine ⟨q, hq, ?_, by decide⟩
    have hg := (hcells 0 0 (by decide) (by decide)).2.1
    rw [hW, hO] at hg
    rw [hg, wrapPixels_low _ (Nat.mod_lt _ (by decide))]
    rfl

/-! ## Layout of the indexed pixel array -/

theorem parseBitmapArray_indexed_nowrap (cs : Bool) (dflt : Color) (pic : BMP) (d : List Byte)
    (w h : Nat) (hbpp : pic.getBitsPerPixel cs ≠ 24)
    (hw : pic.m_bitmapWidth = (w : Int)) (hh : pic.m_bitmapHeight = (h : Int))
    (hw31 : w < 2147483648) (hh31 : h < 2147483648)
    (ho : pic.getPixelArrayAddress < 4294967296)
    (hcover : ∀ i j, i < h → j < w →
      pic.getPixelArrayAddress + i * (w + 4 - w % 4) + j < d.length)
    (hrange : ∀ i j, i < h → j < w →
      pic.getPixelArrayAddress + i * (w + 4 - w % 4) + j < 4294967296) :
    ∃ q, parseBitmapArray cs dflt pic d = .ok q ∧ q.m_colors = pic.m_colors ∧
      ∀ i j K, i < h → j < w →
        d[pic.getPixelArrayAddress + i * (w + 4 - w % 4) + j]? = some K →
        q.m_red.cells i j = ((pic.m_colors K).getD dflt).getRed cs ∧
        q.m_green.cells i j = ((pic.m_colors K).getD dflt).getGreen cs ∧
        q.m_blue.cells i j = ((pic.m_colors K).getD dflt).getBlue cs := by
  have hW : pic.getBitMapWidth = w := by
    unfold BMP.getBitMapWidth; rw [hw]; exact toUInt32_natCast w (by omega)
  have hH : pic.getBitMapHeight = h := by
    unfold BMP.getBitMapHeight; rw [hh]; exact toUInt32_natCast h (by omega)
  have hR : w + (4 - w % 4) = w + 4 - w % 4 := by omega
  obtain ⟨q, hq, hcells⟩ := parseBitmapArray_indexed_spec cs dflt pic d hbpp ho (by
    rw [hW, hH, hR]
    intro r t hr ht
    rw [Nat.mod_eq_of_lt (hrange r t hr ht)]
    exact hcover r t hr ht)
  rw [hW, hH, hR] at hcells
  obtain ⟨r0, g0, b0, hq2⟩ := parseBitmapArray_ok cs dflt pic q d hq
  refine ⟨q, hq, by rw [hq2], fun i j K hi hj hK => ?_⟩
  have hc := hcells i j hi hj
  rw [Nat.mod_eq_of_lt (hrange i j hi hj), byteAt_eq d _ K hK] at hc
  exact hc

/-- C12, amended: when `getBitsPerPixel` is 8, width `w` and height `h` are
non-negative, every offset `o + i * (w + 4 - w % 4) + j` (`i < h`, `j < w`)
lies inside the buffer and below `2^32`, and every index byte read is a key of
the palette, `parseBitmapArray` succeeds and the cells of row `i`, column `j`
hold the red, green and blue channels of the palette entry of the byte at that
offset: one byte per pixel and `4 - w % 4` bytes skipped after each row. -/
theorem parseBitmapArray_indexed_layout (cs : Bool) (dflt : Color) (pic : BMP) (d : List Byte)
    (w h : Nat) (hbpp : pic.getBitsPerPixel cs = 8)
    (hw : pic.m_bitmapWidth = (w : Int)) (hh : pic.m_bitmapHeight = (h : Int))
    (hw31 : w < 2147483648) (hh31 : h < 2147483648)
    (ho : pic.getPixelArrayAddress < 4294967296)
    (hcover : ∀ i j, i < h → j < w →
      pic.getPixelArrayAddress + i * (w + 4 - w % 4) + j < d.length)
    (hrange : ∀ i j, i < h → j < w →
      pic.getPixelArrayAddress + i * (w + 4 - w % 4) + j < 4294967296)
    (hkeys : ∀ i j K, i < h → j < w →
      d[pic.getPixelArrayAddress + i * (w + 4 - w % 4) + j]? = some K →
      (pic.m_colors K).isSome) :
    ∃ q, parseBitmapArray cs dflt pic d = .ok q ∧
      ∀ i j K, i < h → j < w →
        d[pic.getPixelArrayAddress + i * (w + 4 - w % 4) + j]? = some K →
        ∃ c, pic.m_colors K = some c ∧ q.m_red.cells i j = c.getRed cs ∧
          q.m_green.cells i j = c.getGreen cs ∧ q.m_blue.cells i j = c.getBlue cs := by
  obtain ⟨q, hq, -, hcells⟩ := parseBitmapArray_indexed_nowrap cs dflt pic d w h
    (by rw [hbpp]; decide) hw hh hw31 hh31 ho hcover hrange
  refine ⟨q, hq, fun i j K hi hj hK => ?_⟩
  obtain ⟨c, hc⟩ := Option.isSome_iff_exists.1 (hkeys i j K hi hj hK)
  have := hcells i j K hi hj hK
  rw [hc] at this
  exact ⟨c, hc, this⟩

theorem parseBitmapArray_indexed_layout_witness :
    (absentKeyState.getBitsPerPixel true = 8 ∧ absentKeyState.m_bitmapWidth = ((1 : Nat) : Int) ∧
      absentKeyState.m_bitmapHeight = ((1 : Nat) : Int) ∧
      absentKeyState.getPixelArrayAddress = 54 ∧ presentKeyImage.length = 55 ∧
      presentKeyImage[54]? = some 7 ∧ absentKeyState.m_colors 7 = some ⟨10, 20, 30⟩) ∧
    ∃ q, parseBitmapArray true ⟨0, 0, 0⟩ absentKeyState presentKeyImage = .ok q ∧
      ∃ c, absentKeyState.m_colors 7 = some c ∧ q.m_red.cells 0 0 = c.getRed true ∧
        q.m_green.cells 0 0 = c.getGreen true ∧ q.m_blue.cells 0 0 = c.getBlue true :=
  ⟨⟨by decide, rfl, rfl, rfl, rfl, by decide, by decide⟩,
    (parseBitmapArray_indexed_layout true ⟨0, 0, 0⟩ absentKeyState presentKeyImage 1 1
      (by decide) rfl rfl (by decide) (by decide) (by decide)
      (fun i j hi hj => by
        have h1 : absentKeyState.getPixelArrayAddress = 54 := rfl
        have h2 : presentKeyImage.length = 55 := rfl
        simp only [Nat.reduceAdd, Nat.reduceMod, Nat.reduceSub]
        omega)
      (fun i j hi hj => by
        have h1 : absentKeyState.getPixelArrayAddress = 54 := rfl
        simp only [Nat.reduceAdd, Nat.reduceMod, Nat.reduceSub]
        omega)
      (fun i j K hi hj hK => by
        have hi0 : i = 0 := by omega
        have hj0 : j = 0 := by omega
        subst hi0 hj0
        have h7 : presentKeyImage[absentKeyState.getPixelArrayAddress
            + 0 * (1 + 4 - 1 % 4) + 0]? = some 7 := by decide
        rw [h7] at hK
        rw [← Option.some.inj hK]
        decide)).imp fun q hq => ⟨hq.1, hq.2 0 0 7 (by decide) (by decide) (by decide)⟩⟩

/-- C12 as stated fails once an offset passes `2^32`: for a row of two indexed
pixels at pixel array offset `2^32 - 1`, in a buffer that covers both offsets
and whose bytes are all palette keys, the byte at offset `o + 1` is the key 1
with red channel 40, yet the red cell of the second pixel is 10, the red
channel of key 0 read at offset 0. -/
theorem parseBitmapArray_indexed_wrap_counterexample :
    wrapIndexed.getBitsPerPixel true = 8 ∧
    (∀ j, j < 2 → wrapIndexed.getPixelArrayAddress + j < wrapPixels.length) ∧
    wrapPixels[wrapIndexed.getPixelArrayAddress + 1]? = some 1 ∧
    wrapIndexed.m_colors 1 = some ⟨40, 50, 60⟩ ∧
    ∃ q, parseBitmapArray true ⟨0, 0, 0⟩ wrapIndexed wrapPixels = .ok q ∧
      q.m_red.cells 0 1 = 10 ∧ (10 : Int) ≠ Color.getRed true ⟨40, 50, 60⟩ := by
  have hW : wrapIndexed.getBitMapWidth = 2 := rfl
  have hO : wrapIndexed.getPixelArrayAddress = 4294967295 := rfl
  refine ⟨by decide, fun j hj => ?_, wrapPixels_high, by decide, ?_⟩
  · rw [wrapPixels_length, hO]; omega
  · obtain ⟨q, hq, hcells⟩ := parseBitmapArray_indexed_spec true ⟨0, 0, 0⟩ wrapIndexed wrapPixels
      (by decide) (by decide) (fun r t _ _ => by
        rw [wrapPixels_length]
        exact Nat.lt_of_lt_of_le (Nat.mod_lt _ (by decide)) (by decide))
    refine ⟨q, hq, ?_, by decide⟩
    have hr := (hcells 0 1 (by decide) (by decide)).1
    rw [hW, hO] at hr
    rw [hr, wrapPixels_low _ (Nat.mod_lt _ (by decide))]
    rfl

/-- C13, amended: in the indexed branch (depth other than 24), with every pixel
offset inside the buffer and below `2^32`, a pixel whose index byte is not a
key of the palette receives the red, green and blue channels of the
default-constructed `Color`; the lookup is made on a copy, so the palette of
the descriptor is unchanged. -/
theorem parseBitmapArray_indexed_absent_key (cs : Bool) (dflt : Color) (pic : BMP)
    (d : List Byte) (w h : Nat) (hbpp : pic.getBitsPerPixel cs ≠ 24)
    (hw : pic.m_bitmapWidth = (w : Int)) (hh : pic.m_bitmapHeight = (h : Int))
    (hw31 : w < 2147483648) (hh31 : h < 2147483648)
    (ho : pic.getPixelArrayAddress < 4294967296)
    (hcover : ∀ i j, i < h → j < w →
      pic.getPixelArrayAddress + i * (w + 4 - w % 4) + j < d.length)
    (hrange : ∀ i j, i < h → j < w →
      pic.getPixelArrayAddress + i * (w + 4 - w % 4) + j < 4294967296) :
    ∃ q, parseBitmapArray cs dflt pic d = .ok q ∧ q.m_colors = pic.m_colors ∧
      ∀ i j K, i < h → j < w →
        d[pic.getPixelArrayAddress + i * (w + 4 - w % 4) + j]? = some K →
        pic.m_colors K = none →
        q.m_red.cells i j = dflt.getRed cs ∧ q.m_green.cells i j = dflt.getGreen cs ∧
          q.m_blue.cells i j = dflt.getBlue cs := by
  obtain ⟨q, hq, hcol, hcells⟩ := parseBitmapArray_indexed_nowrap cs dflt pic d w h hbpp hw hh
    hw31 hh31 ho hcover hrange
  refine ⟨q, hq, hcol, fun i j K hi hj hK hnone => ?_⟩
  have := hcells i j K hi hj hK
  rw [hnone] at this
  exact this

theorem parseBitmapArray_indexed_absent_key_witness :
    (absentKeyState.getBitsPerPixel true ≠ 24 ∧ absentKeyState.m_bitmapWidth = ((1 : Nat) : Int) ∧
      absentKeyState.m_bitmapHeight = ((1 : Nat) : Int) ∧
      absentKeyState.getPixelArrayAddress = 54 ∧ absentKeyImage.length = 55 ∧
      absentKeyImage[54]? = some 9 ∧ absentKeyState.m_colors 9 = none) ∧
    ∃ q, parseBitmapArray true ⟨1, 2, 3⟩ absentKeyState absentKeyImage = .ok q ∧
      q.m_red.cells 0 0 = 1 ∧ q.m_green.cells 0 0 = 2 ∧ q.m_blue.cells 0 0 = 3 :=
  ⟨⟨by decide, rfl, rfl, rfl, rfl, by decide, by decide⟩,
    (parseBitmapArray_indexed_absent_key true ⟨1, 2, 3⟩ absentKeyState absentKeyImage 1 1
      (by decide) rfl rfl (by decide) (by decide) (by decide)
      (fun i j hi hj => by
        have h1 : absentKeyState.getPixelArrayAddress = 54 := rfl
        have h2 : absentKeyImage.length = 55 := rfl
        simp only [Nat.reduceAdd, Nat.reduceMod, Nat.reduceSub]
        omega)
      (fun i j hi hj => by
        have h1 : absentKeyState.getPixelArrayAddress = 54 := rfl
        simp only [Nat.reduceAdd, Nat.reduceMod, Nat.reduceSub]
        omega)).imp fun q hq =>
        ⟨hq.1, hq.2.2 0 0 9 (by decide) (by decide) (by decide) (by decide)⟩⟩

/-- C13 as stated fails: with palette keys {7} and the index byte 9, the indexed
branch succeeds and gives the pixel the channels 1, 2, 3 of the
default-constructed colour. -/
theorem parseBitmapArray_defaults_absent_key_counterexample :
    absentKeyState.getBitsPerPixel true ≠ 24 ∧ absentKeyImage[54]? = some 9 ∧
    absentKeyState.m_colors 9 = none ∧
    (parseBitmapArray true ⟨1, 2, 3⟩ absentKeyState absentKeyImage).toOption.map
      (fun q => (q.m_red.cells 0 0, q.m_green.cells 0 0, q.m_blue.cells 0 0)) =
        some (1, 2, 3) := by
  decide

/-! ## Dimensions and range of the planes -/

theorem row24_dims (cs : Bool) (d : List Byte) (i cols j idx : Nat) (p : Planes)
    (r : Nat × Planes) (h : row24 cs d i cols j idx p = .ok r) : r.2.dims = p.dims := by
  induction cols generalizing j idx p with
  | zero =>
    simp only [row24, Except.ok.injEq] at h
    rw [← h]
  | succ n ih =>
    unfold row24 at h
    split at h
    · have := ih _ _ _ h
      exact this
    · cases h

theorem rows24_dims (cs : Bool) (d : List Byte) (w pad rows i idx : Nat) (p : Planes)
    (r : Nat × Planes) (h : rows24 cs d w pad rows i idx p = .ok r) : r.2.dims = p.dims := by
  induction rows generalizing i idx p with
  | zero =>
    simp only [rows24, Except.ok.injEq] at h
    rw [← h]
  | succ n ih =>
    unfold rows24 at h
    split at h
    · cases h
    · rename_i idx1 p1 h1
      exact (ih _ _ _ h).trans (row24_dims cs d i w 0 idx p (idx1, p1) h1)

theorem rowIndexed_dims (cs : Bool) (dflt : Color) (pal : Palette) (d : List Byte)
    (i cols j idx : Nat) (p : Planes) (r : Nat × Planes)
    (h : rowIndexed cs dflt pal d i cols j idx p = .ok r) : r.2.dims = p.dims := by
  induction cols generalizing j idx p with
  | zero =>
    simp only [rowIndexed, Except.ok.injEq] at h
    rw [← h]
  | succ n ih =>
    unfold rowIndexed at h
    split at h
    · cases h
    · have := ih _ _ _ h
      exact this

theorem rowsIndexed_dims (cs : Bool) (dflt : Color) (pal : Palette) (d : List Byte)
    (w pad rows i idx : Nat) (p : Planes) (r : Nat × Planes)
    (h : rowsIndexed cs dflt pal d w pad rows i idx p = .ok r) : r.2.dims = p.dims := by
  induction rows generalizing i idx p with
  | zero =>
    simp only [rowsIndexed, Except.ok.injEq] at h
    rw [← h]
  | succ n ih =>
    unfold rowsIndexed at h
    split at h
    · cases h
    · rename_i idx1 p1 h1
      exact (ih _ _ _ h).trans (rowIndexed_dims cs dflt pal d i w 0 idx p (idx1, p1) h1)

theorem parseBitmapArray_dims (cs : Bool) (dflt : Color) (p q : BMP) (d : List Byte)
    (h : parseBitmapArray cs dflt p d = .ok q) :
    ((q.m_red.height, q.m_red.width), (q.m_green.height, q.m_green.width),
      (q.m_blue.height, q.m_blue.width)) =
      ((p.getBitMapHeight, p.getBitMapWidth), (p.getBitMapHeight, p.getBitMapWidth),
        (p.getBitMapHeight, p.getBitMapWidth)) ∧
    q.m_bitmapWidth = p.m_bitmapWidth ∧ q.m_bitmapHeight = p.m_bitmapHeight := by
  unfold parseBitmapArray at h
  simp only at h
  split at h
  · cases h
  · rename_i idx pl hd
    cases h
    refine ⟨?_, rfl, rfl⟩
    split at hd
    · exact rows24_dims cs d _ _ _ _ _ _ (idx, pl) hd
    · exact rowsIndexed_dims cs dflt _ d _ _ _ _ _ _ (idx, pl) hd

/-- C14: when the constructor succeeds, the red, green and blue planes of the
descriptor all have the height and width that `getBitMapHeight` and
`getBitMapWidth` return, in the 24-bit and in the indexed branch alike. -/
theorem Parser_planes_dimensions (cs : Bool) (fresh : BMP) (dflt : Color) (d : List Byte)
    (q : BMP) (h : Parser cs fresh dflt d = .ok q) :
    (q.m_red.height = q.getBitMapHeight ∧ q.m_red.width = q.getBitMapWidth) ∧
    (q.m_green.height = q.getBitMapHeight ∧ q.m_green.width = q.getBitMapWidth) ∧
    (q.m_blue.height = q.getBitMapHeight ∧ q.m_blue.width = q.getBitMapWidth) := by
  unfold Parser at h
  obtain ⟨p1, -, h⟩ := (bind_ok_iff _ _ _).1 h
  obtain ⟨p2, -, h⟩ := (bind_ok_iff _ _ _).1 h
  obtain ⟨p3, -, h⟩ := (bind_ok_iff _ _ _).1 h
  obtain ⟨hd, hw, hh⟩ := parseBitmapArray_dims cs dflt p3 q d h
  have eW : q.getBitMapWidth = p3.getBitMapWidth := by unfold BMP.getBitMapWidth; rw [hw]
  have eH : q.getBitMapHeight = p3.getBitMapHeight := by unfold BMP.getBitMapHeight; rw [hh]
  rw [eW, eH]
  simp only [Prod.mk.injEq] at hd
  exact hd

theorem Parser_planes_dimensions_witness :
    Parser true fresh24 ⟨0, 0, 0⟩ sample24 = .ok sample24Decoded ∧
    (sample24Decoded.m_red.height = 2 ∧ sample24Decoded.m_red.width = 2) ∧
    ((sample24Decoded.m_red.height = sample24Decoded.getBitMapHeight ∧
        sample24Decoded.m_red.width = sample24Decoded.getBitMapWidth) ∧
      (sample24Decoded.m_green.height = sample24Decoded.getBitMapHeight ∧
        sample24Decoded.m_green.width = sample24Decoded.getBitMapWidth) ∧
      (sample24Decoded.m_blue.height = sample24Decoded.getBitMapHeight ∧
        sample24Decoded.m_blue.width = sample24Decoded.getBitMapWidth)) :=
  ⟨rfl, ⟨rfl, rfl⟩,
    Parser_planes_dimensions true fresh24 ⟨0, 0, 0⟩ sample24 sample24Decoded rfl⟩

theorem charToInt_unsignedChar_range (c : Byte) :
    0 ≤ charToInt false c ∧ charToInt false c ≤ 255 := by
  have := c.isLt
  simp only [charToInt, Bool.false_eq_true, false_and, if_false]
  omega

/-- C15: where plain `char` is signed, a 24-bit decode stores negative cells: the
pixel bytes 128, 255, 200 give the red, green and blue cells -128, -1 and -56,
outside the range 0..255. -/
theorem Parser_24bit_negative_cells :
    fresh24.getBitsPerPixel true = 24 ∧
    (highPixelImage[54]? = some 128 ∧ highPixelImage[55]? = some 255 ∧
      highPixelImage[56]? = some 200) ∧
    (Parser true fresh24 ⟨0, 0, 0⟩ highPixelImage).toOption.map
      (fun q => (q.m_red.cells 0 0, q.m_green.cells 0 0, q.m_blue.cells 0 0)) =
        some (-128, -1, -56) := by
  decide

/-! ## The 2 x 2 scenario -/

/-- Decoding of the scenario buffer from a descriptor whose `getBitsPerPixel`
is already 24 and whose map is empty: width 2, height 2, an empty palette, and
cells equal to the `char` values of the 12 pixel bytes in row-major order. -/
theorem scenario24_at_depth24 (cs : Bool) (fresh : BMP) (dflt : Color) (px : Fin 12 → Byte)
    (pad : Fin 4 → Byte) (hbpp : fresh.getBitsPerPixel cs = 24)
    (hempty : fresh.m_colors = Palette.empty) :
    ∃ q, Parser cs fresh dflt (scenario24 px pad) = .ok q ∧
      q.m_bmpFileSize = 70 ∧ q.m_pixelArrayAddress = 54 ∧ q.m_headerSize = 40 ∧
      q.m_bitmapWidth = 2 ∧ q.m_bitmapHeight = 2 ∧ q.m_compression = 0 ∧
      q.m_colors = Palette.empty ∧
      (q.m_red.cells 0 0 = charToInt cs (px 0) ∧ q.m_green.cells 0 0 = charToInt cs (px 1) ∧
        q.m_blue.cells 0 0 = charToInt cs (px 2)) ∧
      (q.m_red.cells 0 1 = charToInt cs (px 3) ∧ q.m_green.cells 0 1 = charToInt cs (px 4) ∧
        q.m_blue.cells 0 1 = charToInt cs (px 5)) ∧
      (q.m_red.cells 1 0 = charToInt cs (px 6) ∧ q.m_green.cells 1 0 = charToInt cs (px 7) ∧
        q.m_blue.cells 1 0 = charToInt cs (px 8)) ∧
      (q.m_red.cells 1 1 = charToInt cs (px 9) ∧ q.m_green.cells 1 1 = charToInt cs (px 10) ∧
        q.m_blue.cells 1 1 = charToInt cs (px 11)) := by
  have hlen : (scenario24 px pad).length = 70 := rfl
  have h50 : 50 ≤ (scenario24 px pad).length := by omega
  have hbody : Parser cs fresh dflt (scenario24 px pad) =
      decodeBody cs dflt (headerFields cs fresh (scenario24 px pad) h50) (scenario24 px pad) := by
    rw [Parser_eq cs fresh dflt _ h50, if_neg, if_neg, if_neg, if_neg, if_neg]
    · exact not_not.2 ((bytesToUnsignedInt_eq_small cs _ 0 (by decide)).2 ⟨rfl, rfl, rfl, rfl⟩)
    · exact not_not.2 ⟨rfl, rfl⟩
    · exact not_not.2 ⟨rfl, rfl⟩
    · exact not_not.2 ((bytesToUnsignedInt_eq_small cs _ 40 (by decide)).2 ⟨rfl, rfl, rfl, rfl⟩)
    · exact not_not.2 ⟨rfl, rfl⟩
  have hu : ∀ (b : Fin 4 → Byte) (n : Nat), n < 128 →
      ((b 0).val = 0 ∧ (b 1).val = 0 ∧ (b 2).val = 0 ∧ (b 3).val = n) →
      bytesToUnsignedInt cs b = n :=
    fun b n hn hb => (bytesToUnsignedInt_eq_small cs b n hn).2 hb
  have hs : ∀ (b : Fin 4 → Byte) (n : Nat), n < 128 →
      ((b 0).val = 0 ∧ (b 1).val = 0 ∧ (b 2).val = 0 ∧ (b 3).val = n) →
      bytesToSignedInt cs b = (n : Int) := by
    intro b n hn hb
    have h3 := (b 3).isLt
    rw [bytesToSignedInt_eq]
    simp only [toInt32, charToInt, hb.1, hb.2.1, hb.2.2.1]
    split <;> omega
  have hw : (headerFields cs fresh (scenario24 px pad) h50).m_bitmapWidth = ((2 : Nat) : Int) :=
    hs _ 2 (by decide) ⟨rfl, rfl, rfl, rfl⟩
  have hh : (headerFields cs fresh (scenario24 px pad) h50).m_bitmapHeight = ((2 : Nat) : Int) :=
    hs _ 2 (by decide) ⟨rfl, rfl, rfl, rfl⟩
  have hO : (headerFields cs fresh (scenario24 px pad) h50).m_pixelArrayAddress = 54 :=
    hu _ 54 (by decide) ⟨rfl, rfl, rfl, rfl⟩
  have hS : (headerFields cs fresh (scenario24 px pad) h50).m_bmpFileSize = 70 :=
    hu _ 70 (by decide) ⟨rfl, rfl, rfl, rfl⟩
  have hHS : (headerFields cs fresh (scenario24 px pad) h50).m_headerSize = 40 :=
    hu _ 40 (by decide) ⟨rfl, rfl, rfl, rfl⟩
  have hC : (headerFields cs fresh (scenario24 px pad) h50).m_compression = 0 :=
    hu _ 0 (by decide) ⟨rfl, rfl, rfl, rfl⟩
  have hnum : parseNumOfColors cs (headerFields cs fresh (scenario24 px pad) h50)
      (scenario24 px pad) =
      .ok { headerFields cs fresh (scenario24 px pad) h50 with m_numOfColors := 16777216 } := by
    rw [parseNumOfColors_eq cs _ _ h50]
    have hb : (headerFields cs fresh (scenario24 px pad) h50).getBitsPerPixel cs = 24 := hbpp
    rw [if_pos, hb]
    · rfl
    · exact hu _ 0 (by decide) ⟨rfl, rfl, rfl, rfl⟩
  have hpal : parseColorPallete cs
      { headerFields cs fresh (scenario24 px pad) h50 with m_numOfColors := 16777216 }
      (scenario24 px pad) =
      .ok { headerFields cs fresh (scenario24 px pad) h50 with m_numOfColors := 16777216 } := by
    unfold parseColorPallete
    have hb : ({ headerFields cs fresh (scenario24 px pad) h50 with
        m_numOfColors := 16777216 } : BMP).getBitsPerPixel cs = 24 := hbpp
    rw [if_neg (by rw [hb]; decide)]
  have h1 : ({ headerFields cs fresh (scenario24 px pad) h50 with
      m_numOfColors := 16777216 } : BMP).getPixelArrayAddress = 54 := hO
  obtain ⟨q, hq, hcells⟩ := parseBitmapArray_24_nowrap cs dflt
    { headerFields cs fresh (scenario24 px pad) h50 with m_numOfColors := 16777216 }
    (scenario24 px pad) 2 2 hbpp hw hh (by decide) (by decide)
    (by rw [h1]; decide)
    (fun i j c hi hj hc => by
      rw [h1, hlen]
      omega)
    (fun i j c hi hj hc => by
      rw [h1]
      omega)
  rw [h1] at hcells
  obtain ⟨r0, g0, b0, hq2⟩ := parseBitmapArray_ok cs dflt _ q _ hq
  refine ⟨q, ?_, ?_, ?_, ?_, ?_, ?_, ?_, ?_, ?_, ?_, ?_, ?_⟩
  · rw [hbody]
    unfold decodeBody
    simp only [bind, Except.bind, hnum, hpal, hq]
  · rw [hq2]; exact hS
  · rw [hq2]; exact hO
  · rw [hq2]; exact hHS
  · rw [hq2]; exact hw
  · rw [hq2]; exact hh
  · rw [hq2]; exact hC
  · rw [hq2]; exact hempty
  · exact hcells 0 0 (px 0) (px 1) (px 2) (by decide) (by decide) rfl rfl rfl
  · exact hcells 0 1 (px 3) (px 4) (px 5) (by decide) (by decide) rfl rfl rfl
  · exact hcells 1 0 (px 6) (px 7) (px 8) (by decide) (by decide) rfl rfl rfl
  · exact hcells 1 1 (px 9) (px 10) (px 11) (by decide) (by decide) rfl rfl rfl

/-- C16: the constructor never stores the depth, so from the value-initialised
descriptor that `std::make_unique<BMP>()` makes the scenario buffer (pixel
bytes 1..12) does decode, with width 2, height 2 and an empty palette, but with
depth 0 through the indexed branch: all twelve cells hold the channel 0 of the
default colour and none holds its pixel byte. -/
theorem Parser_scenario_default_cells :
    scenario24 ![1, 2, 3, 4, 5, 6, 7, 8, 9, 10, 11, 12] ![0, 0, 0, 0] = sample24 ∧
    (sample24[54]? = some 1 ∧ sample24[55]? = some 2 ∧ sample24[56]? = some 3) ∧
    (Parser true BMP.zero ⟨0, 0, 0⟩ sample24).toOption.map
      (fun q => (q.getBitsPerPixel true, q.m_bitmapWidth, q.m_bitmapHeight,
        [q.m_red.cells 0 0, q.m_red.cells 0 1, q.m_red.cells 1 0, q.m_red.cells 1 1],
        [q.m_green.cells 0 0, q.m_green.cells 0 1, q.m_green.cells 1 0, q.m_green.cells 1 1],
        [q.m_blue.cells 0 0, q.m_blue.cells 0 1, q.m_blue.cells 1 0, q.m_blue.cells 1 1])) =
      some (0, 2, 2, [0, 0, 0, 0], [0, 0, 0, 0], [0, 0, 0, 0]) ∧
    (Parser true BMP.zero ⟨0, 0, 0⟩ sample24).toOption.map
      (fun q => (q.m_colors 0, q.m_colors 1, q.m_colors 2)) = some (none, none, none) := by
  exact ⟨by decide, by decide, rfl, by decide⟩

/-! ## Bounds of the header stages -/

theorem parseHeader_error (cs : Bool) (pic : BMP) (d : List Byte) (h50 : 50 ≤ d.length)
    (e : Error) (h : parseHeader cs pic d = .error e) : e = .magic := by
  unfold parseHeader at h
  rcases (bind_error_iff _ _ _).1 h with h1 | ⟨p, -, h⟩
  · rw [parseMagic_eq cs _ d (by omega)] at h1
    split at h1
    · cases h1
    · cases h1; rfl
  · rcases (bind_error_iff _ _ _).1 h with h1 | ⟨p, -, h⟩
    · rw [parseBmpFileSize_eq cs _ d h50] at h1; cases h1
    · rw [parsePixelArrayAddress_eq cs _ d h50] at h; cases h

theorem parseDIBHeader_error (cs : Bool) (pic : BMP) (d : List Byte) (h50 : 50 ≤ d.length)
    (e : Error) (h : parseDIBHeader cs pic d = .error e) : e ≠ .outOfBounds := by
  unfold parseDIBHeader at h
  rcases (bind_error_iff _ _ _).1 h with h1 | ⟨p, -, h⟩
  · rw [parseHeaderSize_eq cs _ d h50] at h1
    split at h1
    · cases h1; decide
    · cases h1
  rcases (bind_error_iff _ _ _).1 h with h1 | ⟨p, -, h⟩
  · rw [parseBitmapWidth_eq cs _ d h50] at h1; cases h1
  rcases (bind_error_iff _ _ _).1 h with h1 | ⟨p, -, h⟩
  · rw [parseBitmapHeight_eq cs _ d h50] at h1; cases h1
  rcases (bind_error_iff _ _ _).1 h with h1 | ⟨p, -, h⟩
  · rw [parseConstant_eq cs _ d h50] at h1
    split at h1
    · cases h1
    · cases h1; decide
  rcases (bind_error_iff _ _ _).1 h with h1 | ⟨p, -, h⟩
  · rw [parseBitsPerPixel_eq cs _ d h50] at h1
    split at h1
    · cases h1
    · cases h1; decide
  rcases (bind_error_iff _ _ _).1 h with h1 | ⟨p, -, h⟩
  · rw [parseCompression_eq cs _ d h50] at h1
    split at h1
    · cases h1; decide
    · cases h1
  rcases (bind_error_iff _ _ _).1 h with h1 | ⟨p, -, h⟩
  · rw [parseBitmapSizeWithoutCompression_eq cs _ d h50] at h1; cases h1
  · rw [parseNumOfColors_eq cs _ d h50] at h
    split at h
    · split at h
      · rename_i e1 hp
        cases h
        unfold powToUInt32 at hp
        split at hp
        · cases hp
        · split at hp
          · cases hp
          · cases hp; decide
      · cases h
    · cases h

/-- C17: on a buffer of at least 54 bytes, `parseHeader` and `parseDIBHeader`
never read out of bounds, whether they succeed or throw, and their outcome is
the same on any buffer with the same first 54 bytes: every index they read is
below 54. -/
theorem header_stages_in_bounds (cs : Bool) (pic : BMP) (d : List Byte)
    (hlen : 54 ≤ d.length) :
    parseHeader cs pic d ≠ .error .outOfBounds ∧
    parseDIBHeader cs pic d ≠ .error .outOfBounds ∧
    ∀ d2 : List Byte, (∀ i, i < 54 → d2[i]? = d[i]?) →
      parseHeader cs pic d2 = parseHeader cs pic d ∧
      parseDIBHeader cs pic d2 = parseDIBHeader cs pic d := by
  refine ⟨fun h => ?_, fun h => ?_, fun d2 hd => ?_⟩
  · have := parseHeader_error cs pic d (by omega) _ h
    cases this
  · exact parseDIBHeader_error cs pic d (by omega) _ h rfl
  · have hr : ∀ i, i < 54 → readAt d2 i = readAt d i := fun i hi => by
      unfold readAt; rw [hd i hi]
    constructor
    · simp (disch := omega) only [parseHeader, parseMagic, parseBmpFileSize,
        parsePixelArrayAddress, read4, Nat.reduceAdd, hr]
    · simp (disch := omega) only [parseDIBHeader, parseHeaderSize, parseBitmapWidth,
        parseBitmapHeight, parseConstant, parseBitsPerPixel, parseCompression,
        parseBitmapSizeWithoutCompression, parseNumOfColors, read4, Nat.reduceAdd, hr]

theorem header_stages_in_bounds_witness :
    54 ≤ sample24.length ∧
    (parseHeader true BMP.zero sample24 ≠ .error .outOfBounds ∧
      parseDIBHeader true BMP.zero sample24 ≠ .error .outOfBounds) ∧
    parseDIBHeader true BMP.zero (sample24.take 54) = parseDIBHeader true BMP.zero sample24 :=
  ⟨by decide,
    ⟨(header_stages_in_bounds true BMP.zero sample24 (by decide)).1,
      (header_stages_in_bounds true BMP.zero sample24 (by decide)).2.1⟩,
    ((header_stages_in_bounds true BMP.zero sample24 (by decide)).2.2 (sample24.take 54)
      (fun i hi => by
        rw [List.getElem?_take]
        simp [hi])).2⟩

/-! ## The depth is never written -/

theorem parseHeader_ok_frame (cs : Bool) (pic p1 : BMP) (d : List Byte) (h50 : 50 ≤ d.length)
    (h : parseHeader cs pic d = .ok p1) :
    p1.m_bitsPerPixel = pic.m_bitsPerPixel ∧ p1.m_colors = pic.m_colors := by
  unfold parseHeader at h
  obtain ⟨q1, h1, h⟩ := (bind_ok_iff _ _ _).1 h
  obtain ⟨q2, h2, h3⟩ := (bind_ok_iff _ _ _).1 h
  rw [parseMagic_eq cs _ d (by omega)] at h1
  rw [parseBmpFileSize_eq cs _ d h50] at h2
  rw [parsePixelArrayAddress_eq cs _ d h50] at h3
  split at h1
  · cases h1; cases h2; cases h3
    exact ⟨rfl, rfl⟩
  · cases h1

theorem parseDIBHeader_ok_frame (cs : Bool) (p1 p2 : BMP) (d : List Byte)
    (h : parseDIBHeader cs p1 d = .ok p2) :
    ∃ p0, p0.m_bitsPerPixel = p1.m_bitsPerPixel ∧ p0.m_colors = p1.m_colors ∧
      parseNumOfColors cs p0 d = .ok p2 := by
  unfold parseDIBHeader at h
  obtain ⟨q1, h1, h⟩ := (bind_ok_iff _ _ _).1 h
  obtain ⟨q2, h2, h⟩ := (bind_ok_iff _ _ _).1 h
  obtain ⟨q3, h3, h⟩ := (bind_ok_iff _ _ _).1 h
  obtain ⟨q4, h4, h⟩ := (bind_ok_iff _ _ _).1 h
  obtain ⟨q5, h5, h⟩ := (bind_ok_iff _ _ _).1 h
  obtain ⟨q6, h6, h⟩ := (bind_ok_iff _ _ _).1 h
  obtain ⟨q7, h7, h⟩ := (bind_ok_iff _ _ _).1 h
  have h50 := parseNumOfColors_ok_length cs q7 p2 d h
  rw [parseHeaderSize_eq cs _ d h50] at h1
  rw [parseBitmapWidth_eq cs _ d h50] at h2
  rw [parseBitmapHeight_eq cs _ d h50] at h3
  rw [parseConstant_eq cs _ d h50] at h4
  rw [parseBitsPerPixel_eq cs _ d h50] at h5
  rw [parseCompression_eq cs _ d h50] at h6
  rw [parseBitmapSizeWithoutCompression_eq cs _ d h50] at h7
  split at h1
  · cases h1
  split at h4
  swap
  · cases h4
  split at h5
  swap
  · cases h5
  split at h6
  · cases h6
  cases h1; cases h2; cases h3; cases h4; cases h5; cases h6; cases h7
  refine ⟨_, ?_, ?_, h⟩
  · rfl
  · rfl

/-- C18, amended: on a buffer of at least 30 bytes `parseBitsPerPixel` either
throws the bits-per-pixel error or returns the descriptor unchanged.  Hence
the depth that `parseNumOfColors`, `parseColorPallete` and `parseBitmapArray`
see is the depth the descriptor had at construction, whatever bytes 28..29
are. -/
theorem parseBitsPerPixel_frame (cs : Bool) (fresh pic : BMP) (d : List Byte)
    (hlen : 30 ≤ d.length) :
    (parseBitsPerPixel cs pic d = .error .bitsPerPixel ∨ parseBitsPerPixel cs pic d = .ok pic) ∧
    (∀ p1 p2, parseHeader cs fresh d = .ok p1 → parseDIBHeader cs p1 d = .ok p2 →
      (∃ p0, p0.getBitsPerPixel cs = fresh.getBitsPerPixel cs ∧
        parseNumOfColors cs p0 d = .ok p2) ∧
      p2.getBitsPerPixel cs = fresh.getBitsPerPixel cs ∧
      ∀ p3, parseColorPallete cs p2 d = .ok p3 →
        p3.getBitsPerPixel cs = fresh.getBitsPerPixel cs) := by
  constructor
  · simp only [parseBitsPerPixel, readAt_ok d 28 (by omega), readAt_ok d 29 (by omega), ne_eq,
      depthMarker_zero_iff]
    by_cases h0 : d[28] = 0 ∧ d[29] = 0 <;> simp [h0]
  · intro p1 p2 h1 h2
    obtain ⟨p0, hb0, -, hn⟩ := parseDIBHeader_ok_frame cs p1 p2 d h2
    have h50 := parseNumOfColors_ok_length cs p0 p2 d hn
    obtain ⟨hb1, -⟩ := parseHeader_ok_frame cs fresh p1 d h50 h1
    obtain ⟨n, hp2, -⟩ := parseNumOfColors_ok cs p0 p2 d hn
    have e0 : p0.getBitsPerPixel cs = fresh.getBitsPerPixel cs := by
      unfold BMP.getBitsPerPixel; rw [hb0, hb1]
    have e2 : p2.getBitsPerPixel cs = fresh.getBitsPerPixel cs := by
      rw [hp2]; exact e0
    refine ⟨⟨p0, e0, hn⟩, e2, fun p3 h3 => ?_⟩
    rcases parseColorPallete_ok cs p2 p3 d h3 with ⟨-, colors, -, hp3⟩ | ⟨-, hp3⟩
    · rw [hp3]; exact e2
    · rw [hp3]; exact e2

theorem parseBitsPerPixel_frame_witness :
    30 ≤ (emptyImage.set 29 24).length ∧
    (parseBitsPerPixel true fresh24 (emptyImage.set 29 24) = .error .bitsPerPixel ∨
      parseBitsPerPixel true fresh24 (emptyImage.set 29 24) = .ok fresh24) :=
  ⟨by decide,
    (parseBitsPerPixel_frame true BMP.zero fresh24 (emptyImage.set 29 24) (by decide)).1⟩

/-- C18 as stated fails on a buffer that stops before offset 29: on the empty
buffer `parseBitsPerPixel` reads out of bounds, which is neither the
bits-per-pixel error nor a return. -/
theorem parseBitsPerPixel_short_buffer_counterexample :
    parseBitsPerPixel true BMP.zero [] = .error .outOfBounds ∧
    parseBitsPerPixel true BMP.zero [] ≠ .error .bitsPerPixel ∧
    ∀ q, parseBitsPerPixel true BMP.zero [] ≠ .ok q := by
  have h : parseBitsPerPixel true BMP.zero [] = .error .outOfBounds := rfl
  refine ⟨h, ?_, fun q => ?_⟩
  · rw [h]; intro hc; cases hc
  · rw [h]; intro hc; cases hc

/-! ## Signed bytes -/

/-- C19: with plain `char` signed, `bytesToUnsignedInt` returns the sum of the
sign-extended bytes weighted by `2^24`, `2^16`, `2^8`, 1, reduced modulo `2^32`;
it equals the big-endian unsigned value whenever bytes 1, 2 and 3 are below
0x80; and `bytesToSignedInt` gives the same value modulo `2^32`. -/
theorem bytesToUnsignedInt_signed_formula (b : Fin 4 → Byte) :
    ((bytesToUnsignedInt true b : Nat) : Int) =
      (signExtend8 (b 0) * 16777216 + signExtend8 (b 1) * 65536 + signExtend8 (b 2) * 256
        + signExtend8 (b 3)) % 4294967296 ∧
    ((b 1).val < 128 → (b 2).val < 128 → (b 3).val < 128 →
      bytesToUnsignedInt true b = beU32 (b 0) (b 1) (b 2) (b 3)) ∧
    bytesToSignedInt true b % 4294967296 = ((bytesToUnsignedInt true b : Nat) : Int) := by
  have h0 := (b 0).isLt
  have h1 := (b 1).isLt
  have h2 := (b 2).isLt
  have h3 := (b 3).isLt
  rw [bytesToUnsignedInt_eq, bytesToSignedInt_eq]
  simp only [toUInt32, toInt32, charToInt, signExtend8, beU32, true_and]
  refine ⟨?_, ?_, ?_⟩
  · split <;> split <;> split <;> split <;> omega
  · intro g1 g2 g3
    split <;> split <;> split <;> split <;> omega
  · split <;> split <;> split <;> split <;> omega

theorem bytesToUnsignedInt_signed_formula_witness :
    ((![200, 1, 2, 3] : Fin 4 → Byte) 1).val < 128 ∧
    bytesToUnsignedInt true ![200, 1, 2, 3] = beU32 200 1 2 3 ∧
    bytesToSignedInt true ![200, 1, 2, 3] % 4294967296 =
      ((bytesToUnsignedInt true ![200, 1, 2, 3] : Nat) : Int) :=
  ⟨by decide,
    (bytesToUnsignedInt_signed_formula ![200, 1, 2, 3]).2.1 (by decide) (by decide) (by decide),
    (bytesToUnsignedInt_signed_formula ![200, 1, 2, 3]).2.2⟩

/-! ## Extent of the 24-bit pixel array -/

theorem row24_ok_cover (cs : Bool) (d : List Byte) (i cols j v : Nat) (p : Planes)
    (r : Nat × Planes) (h : row24 cs d i cols j (v % 4294967296) p = .ok r) :
    ∀ t c, t < cols → c < 3 → (v + 3 * t + c) % 4294967296 < d.length := by
  induction cols generalizing j v p with
  | zero => intro t c ht; omega
  | succ n ih =>
    unfold row24 at h
    split at h
    · rename_i r0 g0 b0 h0 h1 h2
      have e3 : (v % 4294967296 + 3) % 4294967296 = (v + 3) % 4294967296 := by omega
      rw [e3] at h
      have hrest := ih _ _ _ h
      have l0 := readAt_ok_lt d _ _ h0
      have l1 := readAt_ok_lt d _ _ h1
      have l2 := readAt_ok_lt d _ _ h2
      intro t c ht hc
      cases t with
      | zero =>
        have c3 : c = 0 ∨ c = 1 ∨ c = 2 := by omega
        rcases c3 with rfl | rfl | rfl
        · simpa using l0
        · have e : (v + 3 * 0 + 1) % 4294967296 = (v % 4294967296 + 1) % 4294967296 := by omega
          rw [e]; exact l1
        · have e : (v + 3 * 0 + 2) % 4294967296 = (v % 4294967296 + 2) % 4294967296 := by omega
          rw [e]; exact l2
      | succ t =>
        have e : v + 3 * (t + 1) + c = v + 3 + 3 * t + c := by omega
        rw [e]
        exact hrest t c (by omega) hc
    · cases h

theorem rows24_ok_cover (cs : Bool) (d : List Byte) (w pad R : Nat) (hR : R = 3 * w + pad)
    (rows i v : Nat) (p : Planes) (r : Nat × Planes)
    (h : rows24 cs d w pad rows i (v % 4294967296) p = .ok r) :
    ∀ a t c, a < rows → t < w → c < 3 →
      (v + a * R + 3 * t + c) % 4294967296 < d.length := by
  induction rows generalizing i v p with
  | zero => intro a t c ha; omega
  | succ n ih =>
    unfold rows24 at h
    split at h
    · cases h
    · rename_i idx1 p1 h1
      have hrow := row24_ok_cover cs d i w 0 v p (idx1, p1) h1
      obtain ⟨q, hq, -⟩ := row24_spec cs d i w 0 v p hrow
      rw [hq] at h1
      have hidx : idx1 = (v + 3 * w) % 4294967296 := by
        have := congrArg (fun x : Except Error (Nat × Planes) =>
          match x with
          | .ok y => y.1
          | .error _ => 0) h1
        exact this.symm
      have eidx : ((v + 3 * w) % 4294967296 + pad) % 4294967296 = (v + R) % 4294967296 := by
        rw [hR]; omega
      rw [hidx, eidx] at h
      have hrest := ih _ _ _ h
      intro a t c ha ht hc
      cases a with
      | zero =>
        rw [Nat.zero_mul, Nat.add_zero]
        exact hrow t c ht hc
      | succ a =>
        have e : v + (a + 1) * R = v + R + a * R := by
          rw [Nat.add_mul, Nat.one_mul]; omega
        rw [e]
        exact hrest a t c (by omega) ht hc

/-- C20: for depth 24, width `w >= 1`, height `h >= 1` and pixel array offset
`o` with `o + h * (3 * w + w % 4) < 2^32`, `parseBitmapArray` succeeds exactly
when the buffer has at least `o + h * (3 * w + w % 4) - w % 4` bytes and
otherwise reads out of bounds: the largest offset it reads is
`o + h * (3 * w + w % 4) - w % 4 - 1`, and the padding after the last row is
never read. -/
theorem parseBitmapArray_24bit_extent (cs : Bool) (dflt : Color) (pic : BMP) (d : List Byte)
    (w h : Nat) (hbpp : pic.getBitsPerPixel cs = 24)
    (hw : pic.m_bitmapWidth = (w : Int)) (hh : pic.m_bitmapHeight = (h : Int))
    (hw1 : 1 ≤ w) (hh1 : 1 ≤ h)
    (hrange : pic.getPixelArrayAddress + h * (3 * w + w % 4) < 4294967296) :
    ((∃ q, parseBitmapArray cs dflt pic d = .ok q) ↔
      pic.getPixelArrayAddress + h * (3 * w + w % 4) - w % 4 ≤ d.length) ∧
    (d.length < pic.getPixelArrayAddress + h * (3 * w + w % 4) - w % 4 →
      parseBitmapArray cs dflt pic d = .error .outOfBounds) := by
  have hRw : 3 * w ≤ 3 * w + w % 4 := by omega
  have hmul1 : 1 * (3 * w + w % 4) ≤ h * (3 * w + w % 4) := Nat.mul_le_mul_right _ hh1
  have hmul3 : h * 3 ≤ h * (3 * w + w % 4) := Nat.mul_le_mul_left _ (by omega)
  rw [Nat.one_mul] at hmul1
  have hW : pic.getBitMapWidth = w := by
    unfold BMP.getBitMapWidth; rw [hw]; exact toUInt32_natCast w (by omega)
  have hH : pic.getBitMapHeight = h := by
    unfold BMP.getBitMapHeight; rw [hh]; exact toUInt32_natCast h (by omega)
  have hstep : ∀ a, a < h →
      a * (3 * w + w % 4) + (3 * w + w % 4) ≤ h * (3 * w + w % 4) := by
    intro a ha
    have := Nat.mul_le_mul_right (3 * w + w % 4) (show a + 1 ≤ h by omega)
    rw [Nat.add_mul, Nat.one_mul] at this
    exact this
  have hlast : (h - 1) * (3 * w + w % 4) + (3 * w + w % 4) = h * (3 * w + w % 4) := by
    have e : h = (h - 1) + 1 := by omega
    conv_rhs => rw [e, Nat.add_mul, Nat.one_mul]
  have hiff : (∃ q, parseBitmapArray cs dflt pic d = .ok q) ↔
      pic.getPixelArrayAddress + h * (3 * w + w % 4) - w % 4 ≤ d.length := by
    constructor
    · rintro ⟨q, hq⟩
      unfold parseBitmapArray at hq
      simp only [if_pos hbpp] at hq
      split at hq
      · cases hq
      · rename_i idx pl hd
        rw [hW, hH, ← Nat.mod_eq_of_lt (show pic.getPixelArrayAddress < 4294967296 by omega)]
          at hd
        have hc := rows24_ok_cover cs d w (w % 4) (3 * w + w % 4) rfl h 0
          pic.getPixelArrayAddress _ (idx, pl) hd (h - 1) (w - 1) 2 (by omega) (by omega)
          (by omega)
        rw [Nat.mod_eq_of_lt (by omega)] at hc
        omega
    · intro hL
      obtain ⟨q, hq, -⟩ := parseBitmapArray_24_spec cs dflt pic d hbpp (by omega) (by
        rw [hW, hH]
        intro a t c ha ht hc
        have := hstep a ha
        rw [Nat.mod_eq_of_lt (by omega)]
        omega)
      exact ⟨q, hq⟩
  refine ⟨hiff, fun hlt => ?_⟩
  cases hres : parseBitmapArray cs dflt pic d with
  | ok q => exact absurd (hiff.1 ⟨q, hres⟩) (by omega)
  | error e => rw [parseBitmapArray_error cs dflt pic d e hres]

theorem parseBitmapArray_24bit_extent_witness :
    (sample24State.getBitsPerPixel true = 24 ∧
      sample24State.getPixelArrayAddress + 2 * (3 * 2 + 2 % 4) < 4294967296 ∧
      sample24State.getPixelArrayAddress + 2 * (3 * 2 + 2 % 4) - 2 % 4 = 68 ∧
      (sample24.take 68).length = 68) ∧
    (∃ q, parseBitmapArray true ⟨0, 0, 0⟩ sample24State (sample24.take 68) = .ok q) ∧
    parseBitmapArray true ⟨0, 0, 0⟩ sample24State (sample24.take 67) = .error .outOfBounds :=
  ⟨⟨by decide, by decide, by decide, by decide⟩,
    (parseBitmapArray_24bit_extent true ⟨0, 0, 0⟩ sample24State (sample24.take 68) 2 2
      (by decide) rfl rfl (by decide) (by decide) (by decide)).1.2 (by decide),
    (parseBitmapArray_24bit_extent true ⟨0, 0, 0⟩ sample24State (sample24.take 67) 2 2
      (by decide) rfl rfl (by decide) (by decide) (by decide)).2 (by decide)⟩

end bmp
